import Mathlib

/-! Stateful string provider: trigger diffing and update reconciliation.

A shallow embedding of `provider/provider.go` (`checkTriggerDiffAndUpdate`,
`StatefulString.Create`, `StatefulString.Update`, `StatefulString.Diff`,
`StatefulString.Check`) together with the properties of the trigger-diff
algorithm.

Go maps are embedded as association lists. The order of the entry list is the
order in which a `range` loop visits the map; a well-formed map has no key
twice. The nil map is kept apart from the empty map.
-/

namespace StatefulString

/-! ## Go maps with string keys -/

/-- Entries of an allocated Go map with string keys, in iteration order. -/
abbrev Entries (V : Type) := List (String × V)

/-- Comma-ok index expression `v, ok := m[k]` on the entries of a map:
`some v` when the key is present, `none` when it is not. -/
def Entries.get {V : Type} : Entries V → String → Option V
  | [], _ => none
  | (k', v) :: es, k => if k' = k then some v else Entries.get es k

/-- Index assignment `m[k] = v` on an allocated map: the value of an existing
key is replaced, a fresh key gets a new entry. -/
def Entries.set {V : Type} : Entries V → String → V → Entries V
  | [], k, v => [(k, v)]
  | (k', v') :: es, k, v =>
    if k' = k then (k', v) :: es else (k', v') :: Entries.set es k v

/-- Go value of type `map[string]V`: the nil map or an allocated map. -/
inductive GoMap (V : Type) where
  | nil : GoMap V
  | lit (es : Entries V) : GoMap V
  deriving DecidableEq, Repr

/-- Entries visited by `for k, v := range m`; ranging over the nil map visits
nothing. -/
def GoMap.entries {V : Type} : GoMap V → Entries V
  | .nil => []
  | .lit es => es

/-- Comma-ok index expression `v, ok := m[k]`; reading the nil map finds
nothing. -/
def GoMap.get {V : Type} (m : GoMap V) (k : String) : Option V :=
  Entries.get m.entries k

/-- Well-formed map: no key occurs twice among the entries. -/
def GoMap.WF {V : Type} (m : GoMap V) : Prop :=
  (m.entries.map Prod.fst).Nodup

instance {V : Type} (m : GoMap V) : Decidable m.WF := by
  unfold GoMap.WF; infer_instance

/-! ## Data model of the provider -/

/-- Go `error` value; `none` is the nil error. -/
abbrev GoError := Option String

/-- Go type `string`. -/
abbrev GoString : Type := String

/-- Type `p.DiffKind`, a string type. -/
abbrev DiffKind : Type := GoString

/-- Type `p.PropertyDiff`. -/
structure PropertyDiff where
  Kind : DiffKind
  InputDiff : Bool
  deriving DecidableEq, Repr

/-- Input struct of the resource. -/
structure StatefulStringArgs where
  String : GoString
  Triggers : GoMap GoString
  deriving DecidableEq, Repr

/-- State of the resource; it embeds the input struct. -/
structure StatefulStringState extends StatefulStringArgs
  deriving DecidableEq, Repr

/-- Result of `checkTriggerDiffAndUpdate`. The change map is always the map
allocated by the literal `map[string]p.PropertyDiff{}`, so it is held as
entries. -/
structure checkTriggerDiffAndUpdateResult where
  triggerChanged : Bool
  changeMap : Entries PropertyDiff
  statefulStringArgs : StatefulStringArgs
  deriving DecidableEq, Repr

/-- Type `p.DiffResponse`, restricted to the fields the provider fills in. -/
structure DiffResponse where
  HasChanges : Bool
  DetailedDiff : GoMap PropertyDiff
  deriving DecidableEq, Repr

/-- Go slice value: the nil slice or an allocated slice. -/
inductive GoSlice (α : Type) where
  | nil : GoSlice α
  | lit (xs : List α) : GoSlice α

/-- Built-in `len` on a slice; the nil slice has length 0. -/
def GoSlice.len {α : Type} : GoSlice α → Nat
  | .nil => 0
  | .lit xs => xs.length

/-- Modelled from the spec: the declaration of `resource.PropertyValue` is not
under src. Only the values that the tests build are kept: string properties
and object properties. -/
inductive PropertyValue where
  | string (s : String) : PropertyValue
  | object (fields : List (String × PropertyValue)) : PropertyValue

/-- Type `resource.PropertyMap`, a map from property keys to property values. -/
abbrev PropertyMap : Type := GoMap PropertyValue

/-- Modelled from the spec: the declaration of `p.CheckFailure` is not under
src; the spec gives a failure a property and a reason, and the commented-out
validation in `Check` fills the fields `Property` and `Reason`. -/
structure CheckFailure where
  Property : GoString
  Reason : GoString

/-- Modelled from the spec: the declaration of `p.CheckResponse` is not under
src; the spec gives the response the normalized inputs and the sequence of
failures, and the test file names the fields `Inputs` and `Failures`. -/
structure CheckResponse where
  Inputs : PropertyMap
  Failures : GoSlice CheckFailure

/-! ## Operations -/

/-- Method `StatefulString.Create` (the context argument is not used). -/
def Create (name : String) (input : StatefulStringArgs) (_preview : Bool) :
    String × StatefulStringState × GoError :=
  let id := name
  let output : StatefulStringState := { toStatefulStringArgs := input }
  (id, output, none)

/-- Body of the first loop of `checkTriggerDiffAndUpdate`, for one entry
`newKey, newValue` of `news.Triggers`. -/
def newTriggerStep (olds : StatefulStringState)
    (r : checkTriggerDiffAndUpdateResult) (kv : String × String) :
    checkTriggerDiffAndUpdateResult :=
  let newKey := kv.1
  let newValue := kv.2
  let fullKey := "triggers." ++ newKey
  match olds.Triggers.get newKey with
  | none =>
    { r with
      changeMap := r.changeMap.set fullKey { Kind := "add", InputDiff := false }
      triggerChanged := true }
  | some oldValue =>
    if newValue ≠ oldValue then
      { r with
        triggerChanged := true
        changeMap := r.changeMap.set fullKey { Kind := "update", InputDiff := false } }
    else r

/-- Body of the second loop of `checkTriggerDiffAndUpdate`, for one key
`oldKey` of `olds.Triggers`. -/
def oldTriggerStep (news : StatefulStringArgs)
    (r : checkTriggerDiffAndUpdateResult) (kv : String × String) :
    checkTriggerDiffAndUpdateResult :=
  let oldKey := kv.1
  match news.Triggers.get oldKey with
  | none =>
    let fullKey := "triggers." ++ oldKey
    { r with
      triggerChanged := true
      changeMap := r.changeMap.set fullKey { Kind := "delete", InputDiff := false } }
  | some _ => r

/-- Function `checkTriggerDiffAndUpdate`. -/
def checkTriggerDiffAndUpdate (olds : StatefulStringState) (news : StatefulStringArgs) :
    checkTriggerDiffAndUpdateResult × GoError :=
  -- Assume no triggers have changed initially
  let r0 : checkTriggerDiffAndUpdateResult :=
    { triggerChanged := false
      changeMap := []
      statefulStringArgs := { String := olds.String, Triggers := news.Triggers } }
  -- 1. new triggers that are added or whose value differs
  let r1 := news.Triggers.entries.foldl (newTriggerStep olds) r0
  -- 2. old triggers that are removed
  let r2 := olds.Triggers.entries.foldl (oldTriggerStep news) r1
  -- If a trigger has changed, update the string and triggers
  let r3 :=
    if r2.triggerChanged then
      let r := { r2 with statefulStringArgs := news }
      if news.String ≠ olds.String then
        { r with changeMap := r.changeMap.set "string" { Kind := "update", InputDiff := false } }
      else r
    else r2
  (r3, none)

/-- Method `StatefulString.Update` (the context argument is not used). -/
def Update (_name : String) (olds : StatefulStringState) (news : StatefulStringArgs)
    (_preview : Bool) : StatefulStringState × GoError :=
  let d := (checkTriggerDiffAndUpdate olds news).1
  ({ toStatefulStringArgs := d.statefulStringArgs }, none)

/-- Method `StatefulString.Diff` (the context argument is not used). -/
def Diff (_name : String) (olds : StatefulStringState) (news : StatefulStringArgs) :
    DiffResponse × GoError :=
  let d := (checkTriggerDiffAndUpdate olds news).1
  ({ HasChanges := d.triggerChanged, DetailedDiff := .lit d.changeMap }, none)

/-- Method `StatefulString.Check` (the context argument is not used; the four
`print` calls write to standard error and are left out). The body returns the
zero value `p.CheckResponse{}`: a nil `Inputs` map and a nil `Failures`
slice. -/
def Check (_name : String) (_oldInputs : PropertyMap) (_newInputs : PropertyMap) :
    CheckResponse × GoError :=
  ({ Inputs := .nil, Failures := .nil }, none)

/-- Record that the first loop stores for a key of the new triggers: "add"
when the old triggers lack the key, "update" otherwise. -/
def newRecord (olds : StatefulStringState) (k : String) : PropertyDiff :=
  match olds.Triggers.get k with
  | none => { Kind := "add", InputDiff := false }
  | some _ => { Kind := "update", InputDiff := false }

/-- Record that the second loop stores for a removed key. -/
def deleteRecord : PropertyDiff := { Kind := "delete", InputDiff := false }

/-- State of `checkTriggerDiffAndUpdate` after both loops, before the final
`if r.triggerChanged` block. -/
def loopsResult (olds : StatefulStringState) (news : StatefulStringArgs) :
    checkTriggerDiffAndUpdateResult :=
  olds.Triggers.entries.foldl (oldTriggerStep news)
    (news.Triggers.entries.foldl (newTriggerStep olds)
      { triggerChanged := false
        changeMap := []
        statefulStringArgs := { String := olds.String, Triggers := news.Triggers } })

/-- Final `if r.triggerChanged` block of `checkTriggerDiffAndUpdate`, applied
to the state `r` reached after both loops. -/
def finishStep (olds : StatefulStringState) (news : StatefulStringArgs)
    (r : checkTriggerDiffAndUpdateResult) : checkTriggerDiffAndUpdateResult :=
  if r.triggerChanged then
    let r1 := { r with statefulStringArgs := news }
    if news.String ≠ olds.String then
      { r1 with changeMap := r1.changeMap.set "string" { Kind := "update", InputDiff := false } }
    else r1
  else r

/-- Record found under the path of a trigger key, as a function of the
lookups of the key in the old and in the new triggers. -/
def pathRecord : Option String → Option String → Option PropertyDiff
  | none, none => none
  | some _, none => some { Kind := "delete", InputDiff := false }
  | none, some _ => some { Kind := "add", InputDiff := false }
  | some a, some b =>
    if a = b then none else some { Kind := "update", InputDiff := false }

/-! ## Facts about diff paths -/

theorem triggers_path_inj {a b : String} (h : "triggers." ++ a = "triggers." ++ b) : a = b := by
  have h1 := congrArg String.data h
  simp only [String.data_append] at h1
  exact String.ext (List.append_cancel_left h1)

theorem triggers_path_ne_string (k : String) : "triggers." ++ k ≠ "string" := by
  intro h
  have h1 := congrArg String.data h
  simp only [String.data_append] at h1
  have h2 := congrArg List.head? h1
  simp at h2

/-! ## Facts about map entries -/

theorem Entries.get_set {V : Type} (es : Entries V) (k k' : String) (v : V) :
    (es.set k' v).get k = if k' = k then some v else es.get k := by
  induction es with
  | nil => simp [Entries.set, Entries.get]
  | cons e es ih =>
    obtain ⟨a, b⟩ := e
    by_cases h : a = k'
    · subst h
      by_cases h2 : a = k <;> simp [Entries.set, Entries.get, h2]
    · by_cases h2 : a = k
      · subst h2
        have h3 : ¬ k' = a := fun h3 => h h3.symm
        simp [Entries.set, Entries.get, h, h3]
      · simp [Entries.set, Entries.get, h, h2, ih]

theorem Entries.get_ne_none_of_mem {V : Type} {es : Entries V} {k : String} {v : V}
    (h : (k, v) ∈ es) : es.get k ≠ none := by
  induction es with
  | nil => simp at h
  | cons e es ih =>
    obtain ⟨a, b⟩ := e
    by_cases h2 : a = k
    · simp [Entries.get, h2]
    · simp only [Entries.get, h2, if_false]
      rcases List.mem_cons.1 h with h3 | h3
      · exact absurd (congrArg Prod.fst h3).symm h2
      · exact ih h3

theorem Entries.mem_of_get {V : Type} {es : Entries V} {k : String} {v : V}
    (h : es.get k = some v) : (k, v) ∈ es := by
  induction es with
  | nil => simp [Entries.get] at h
  | cons e es ih =>
    obtain ⟨a, b⟩ := e
    by_cases h2 : a = k
    · subst h2
      simp only [Entries.get, if_true, Option.some.injEq] at h
      subst h
      exact List.mem_cons_self _ _
    · simp only [Entries.get, h2, if_false] at h
      exact List.mem_cons_of_mem _ (ih h)

theorem Entries.get_of_mem_nodup {V : Type} {es : Entries V} {k : String} {v : V}
    (hn : (es.map Prod.fst).Nodup) (h : (k, v) ∈ es) : es.get k = some v := by
  induction es with
  | nil => simp at h
  | cons e es ih =>
    obtain ⟨a, b⟩ := e
    simp only [List.map_cons, List.nodup_cons] at hn
    rcases List.mem_cons.1 h with h3 | h3
    · cases h3
      simp [Entries.get]
    · have h4 : a ≠ k := by
        intro h5
        subst h5
        exact hn.1 (List.mem_map.2 ⟨(a, v), h3, rfl⟩)
      simp only [Entries.get, h4, if_false]
      exact ih hn.2 h3

/-! ## The first loop -/

theorem newTriggerStep_same {olds : StatefulStringState} {r : checkTriggerDiffAndUpdateResult}
    {kv : String × String} (h : olds.Triggers.get kv.1 = some kv.2) :
    newTriggerStep olds r kv = r := by
  simp [newTriggerStep, h]

theorem newTriggerStep_args (olds : StatefulStringState) (r : checkTriggerDiffAndUpdateResult)
    (kv : String × String) :
    (newTriggerStep olds r kv).statefulStringArgs = r.statefulStringArgs := by
  cases h : olds.Triggers.get kv.1 with
  | none => simp [newTriggerStep, h]
  | some w =>
    by_cases h2 : kv.2 = w <;> simp [newTriggerStep, h, h2]

theorem newTriggerStep_changed (olds : StatefulStringState) (r : checkTriggerDiffAndUpdateResult)
    (kv : String × String) :
    (newTriggerStep olds r kv).triggerChanged =
      (r.triggerChanged || decide (olds.Triggers.get kv.1 ≠ some kv.2)) := by
  cases h : olds.Triggers.get kv.1 with
  | none => simp [newTriggerStep, h]
  | some w =>
    by_cases h2 : kv.2 = w
    · simp [newTriggerStep, h, h2]
    · have h3 : ¬ w = kv.2 := fun h3 => h2 h3.symm
      simp [newTriggerStep, h, h2, h3]

theorem newTriggerStep_get (olds : StatefulStringState) (r : checkTriggerDiffAndUpdateResult)
    (kv : String × String) (p : String) :
    (newTriggerStep olds r kv).changeMap.get p =
      if "triggers." ++ kv.1 = p ∧ olds.Triggers.get kv.1 ≠ some kv.2
      then some (newRecord olds kv.1) else r.changeMap.get p := by
  cases h : olds.Triggers.get kv.1 with
  | none =>
    by_cases h2 : "triggers." ++ kv.1 = p <;>
      simp [newTriggerStep, newRecord, h, h2, Entries.get_set]
  | some w =>
    by_cases h2 : kv.2 = w
    · simp [newTriggerStep, h, h2]
    · have h3 : ¬ w = kv.2 := fun h3 => h2 h3.symm
      by_cases h4 : "triggers." ++ kv.1 = p <;>
        simp [newTriggerStep, newRecord, h, h2, h3, h4, Entries.get_set]

theorem newLoop_same {olds : StatefulStringState} (l : Entries String)
    (r : checkTriggerDiffAndUpdateResult)
    (h : ∀ kv ∈ l, olds.Triggers.get kv.1 = some kv.2) :
    l.foldl (newTriggerStep olds) r = r := by
  induction l generalizing r with
  | nil => rfl
  | cons e l ih =>
    rw [List.foldl_cons, newTriggerStep_same (h e (List.mem_cons_self _ _))]
    exact ih r (fun kv hkv => h kv (List.mem_cons_of_mem _ hkv))

theorem newLoop_args (olds : StatefulStringState) (l : Entries String)
    (r : checkTriggerDiffAndUpdateResult) :
    (l.foldl (newTriggerStep olds) r).statefulStringArgs = r.statefulStringArgs := by
  induction l generalizing r with
  | nil => rfl
  | cons e l ih => rw [List.foldl_cons, ih, newTriggerStep_args]

theorem newLoop_changed (olds : StatefulStringState) (l : Entries String)
    (r : checkTriggerDiffAndUpdateResult) :
    (l.foldl (newTriggerStep olds) r).triggerChanged = true ↔
      r.triggerChanged = true ∨ ∃ kv ∈ l, olds.Triggers.get kv.1 ≠ some kv.2 := by
  induction l generalizing r with
  | nil => simp
  | cons e l ih =>
    rw [List.foldl_cons, ih, newTriggerStep_changed]
    simp only [Bool.or_eq_true, decide_eq_true_eq, List.mem_cons, exists_eq_or_imp, or_assoc]

theorem newLoop_get_unchanged (olds : StatefulStringState) (l : Entries String)
    (r : checkTriggerDiffAndUpdateResult) (p : String)
    (h : ∀ kv ∈ l, "triggers." ++ kv.1 = p → olds.Triggers.get kv.1 = some kv.2) :
    (l.foldl (newTriggerStep olds) r).changeMap.get p = r.changeMap.get p := by
  induction l generalizing r with
  | nil => rfl
  | cons e l ih =>
    rw [List.foldl_cons, ih _ (fun kv hkv => h kv (List.mem_cons_of_mem _ hkv)),
      newTriggerStep_get]
    have h2 := h e (List.mem_cons_self _ _)
    by_cases h3 : "triggers." ++ e.1 = p
    · simp [h2 h3]
    · simp [h3]

theorem newLoop_get_written (olds : StatefulStringState) (l : Entries String)
    (r : checkTriggerDiffAndUpdateResult) (K : String)
    (h : r.changeMap.get ("triggers." ++ K) = some (newRecord olds K) ∨
      ∃ kv ∈ l, kv.1 = K ∧ olds.Triggers.get K ≠ some kv.2) :
    (l.foldl (newTriggerStep olds) r).changeMap.get ("triggers." ++ K) =
      some (newRecord olds K) := by
  induction l generalizing r with
  | nil => simpa using h
  | cons e l ih =>
    rw [List.foldl_cons]
    apply ih
    rw [newTriggerStep_get]
    by_cases h2 : "triggers." ++ e.1 = "triggers." ++ K ∧ olds.Triggers.get e.1 ≠ some e.2
    · left
      rw [if_pos h2, triggers_path_inj h2.1]
    · rw [if_neg h2]
      rcases h with h | ⟨kv, hkv, h3, h4⟩
      · exact Or.inl h
      · rcases List.mem_cons.1 hkv with h5 | h5
        · subst h5
          subst h3
          exact absurd ⟨rfl, h4⟩ h2
        · exact Or.inr ⟨kv, h5, h3, h4⟩

/-! ## The second loop -/

theorem oldTriggerStep_same {news : StatefulStringArgs} {r : checkTriggerDiffAndUpdateResult}
    {kv : String × String} (h : news.Triggers.get kv.1 ≠ none) :
    oldTriggerStep news r kv = r := by
  cases h2 : news.Triggers.get kv.1 with
  | none => exact absurd h2 h
  | some w => simp [oldTriggerStep, h2]

theorem oldTriggerStep_args (news : StatefulStringArgs) (r : checkTriggerDiffAndUpdateResult)
    (kv : String × String) :
    (oldTriggerStep news r kv).statefulStringArgs = r.statefulStringArgs := by
  cases h : news.Triggers.get kv.1 <;> simp [oldTriggerStep, h]

theorem oldTriggerStep_changed (news : StatefulStringArgs) (r : checkTriggerDiffAndUpdateResult)
    (kv : String × String) :
    (oldTriggerStep news r kv).triggerChanged =
      (r.triggerChanged || decide (news.Triggers.get kv.1 = none)) := by
  cases h : news.Triggers.get kv.1 <;> simp [oldTriggerStep, h]

theorem oldTriggerStep_get (news : StatefulStringArgs) (r : checkTriggerDiffAndUpdateResult)
    (kv : String × String) (p : String) :
    (oldTriggerStep news r kv).changeMap.get p =
      if "triggers." ++ kv.1 = p ∧ news.Triggers.get kv.1 = none
      then some deleteRecord else r.changeMap.get p := by
  cases h : news.Triggers.get kv.1 with
  | none =>
    by_cases h2 : "triggers." ++ kv.1 = p <;>
      simp [oldTriggerStep, deleteRecord, h, h2, Entries.get_set]
  | some w => simp [oldTriggerStep, h]

theorem oldLoop_same {news : StatefulStringArgs} (l : Entries String)
    (r : checkTriggerDiffAndUpdateResult)
    (h : ∀ kv ∈ l, news.Triggers.get kv.1 ≠ none) :
    l.foldl (oldTriggerStep news) r = r := by
  induction l generalizing r with
  | nil => rfl
  | cons e l ih =>
    rw [List.foldl_cons, oldTriggerStep_same (h e (List.mem_cons_self _ _))]
    exact ih r (fun kv hkv => h kv (List.mem_cons_of_mem _ hkv))

theorem oldLoop_args (news : StatefulStringArgs) (l : Entries String)
    (r : checkTriggerDiffAndUpdateResult) :
    (l.foldl (oldTriggerStep news) r).statefulStringArgs = r.statefulStringArgs := by
  induction l generalizing r with
  | nil => rfl
  | cons e l ih => rw [List.foldl_cons, ih, oldTriggerStep_args]

theorem oldLoop_changed (news : StatefulStringArgs) (l : Entries String)
    (r : checkTriggerDiffAndUpdateResult) :
    (l.foldl (oldTriggerStep news) r).triggerChanged = true ↔
      r.triggerChanged = true ∨ ∃ kv ∈ l, news.Triggers.get kv.1 = none := by
  induction l generalizing r with
  | nil => simp
  | cons e l ih =>
    rw [List.foldl_cons, ih, oldTriggerStep_changed]
    simp only [Bool.or_eq_true, decide_eq_true_eq, List.mem_cons, exists_eq_or_imp, or_assoc]

theorem oldLoop_get_unchanged (news : StatefulStringArgs) (l : Entries String)
    (r : checkTriggerDiffAndUpdateResult) (p : String)
    (h : ∀ kv ∈ l, "triggers." ++ kv.1 = p → news.Triggers.get kv.1 ≠ none) :
    (l.foldl (oldTriggerStep news) r).changeMap.get p = r.changeMap.get p := by
  induction l generalizing r with
  | nil => rfl
  | cons e l ih =>
    rw [List.foldl_cons, ih _ (fun kv hkv => h kv (List.mem_cons_of_mem _ hkv)),
      oldTriggerStep_get]
    have h2 := h e (List.mem_cons_self _ _)
    by_cases h3 : "triggers." ++ e.1 = p
    · simp [h2 h3]
    · simp [h3]

theorem oldLoop_get_written (news : StatefulStringArgs) (l : Entries String)
    (r : checkTriggerDiffAndUpdateResult) (K : String)
    (h : r.changeMap.get ("triggers." ++ K) = some deleteRecord ∨
      ∃ kv ∈ l, kv.1 = K ∧ news.Triggers.get K = none) :
    (l.foldl (oldTriggerStep news) r).changeMap.get ("triggers." ++ K) =
      some deleteRecord := by
  induction l generalizing r with
  | nil => simpa using h
  | cons e l ih =>
    rw [List.foldl_cons]
    apply ih
    rw [oldTriggerStep_get]
    by_cases h2 : "triggers." ++ e.1 = "triggers." ++ K ∧ news.Triggers.get e.1 = none
    · left
      rw [if_pos h2]
    · rw [if_neg h2]
      rcases h with h | ⟨kv, hkv, h3, h4⟩
      · exact Or.inl h
      · rcases List.mem_cons.1 hkv with h5 | h5
        · subst h5
          subst h3
          exact absurd ⟨rfl, h4⟩ h2
        · exact Or.inr ⟨kv, h5, h3, h4⟩

/-! ## The whole of `checkTriggerDiffAndUpdate` -/

theorem check_eq (olds : StatefulStringState) (news : StatefulStringArgs) :
    checkTriggerDiffAndUpdate olds news = (finishStep olds news (loopsResult olds news), none) :=
  rfl

theorem finishStep_triggerChanged (olds : StatefulStringState) (news : StatefulStringArgs)
    (r : checkTriggerDiffAndUpdateResult) :
    (finishStep olds news r).triggerChanged = r.triggerChanged := by
  unfold finishStep
  split_ifs <;> rfl

theorem finishStep_args (olds : StatefulStringState) (news : StatefulStringArgs)
    (r : checkTriggerDiffAndUpdateResult) :
    (finishStep olds news r).statefulStringArgs =
      if r.triggerChanged = true then news else r.statefulStringArgs := by
  unfold finishStep
  split_ifs <;> rfl

theorem finishStep_get (olds : StatefulStringState) (news : StatefulStringArgs)
    (r : checkTriggerDiffAndUpdateResult) (p : String) :
    (finishStep olds news r).changeMap.get p =
      if "string" = p ∧ r.triggerChanged = true ∧ news.String ≠ olds.String
      then some { Kind := "update", InputDiff := false } else r.changeMap.get p := by
  unfold finishStep
  by_cases h : r.triggerChanged = true
  · by_cases h2 : news.String = olds.String
    · simp [h, h2]
    · by_cases h3 : "string" = p <;> simp [h, h2, h3, Entries.get_set]
  · simp [h]

theorem finishStep_of_unchanged (olds : StatefulStringState) (news : StatefulStringArgs)
    (r : checkTriggerDiffAndUpdateResult) (h : r.triggerChanged = false) :
    finishStep olds news r = r := by
  simp [finishStep, h]

theorem loopsResult_args (olds : StatefulStringState) (news : StatefulStringArgs) :
    (loopsResult olds news).statefulStringArgs =
      { String := olds.String, Triggers := news.Triggers } := by
  rw [loopsResult, oldLoop_args, newLoop_args]

theorem loopsResult_get_string (olds : StatefulStringState) (news : StatefulStringArgs) :
    (loopsResult olds news).changeMap.get "string" = none := by
  rw [loopsResult, oldLoop_get_unchanged, newLoop_get_unchanged]
  · rfl
  · intro kv _ h
    exact absurd h (triggers_path_ne_string kv.1)
  · intro kv _ h
    exact absurd h (triggers_path_ne_string kv.1)

theorem loopsResult_changed (olds : StatefulStringState) (news : StatefulStringArgs) :
    (loopsResult olds news).triggerChanged = true ↔
      (∃ kv ∈ news.Triggers.entries, olds.Triggers.get kv.1 ≠ some kv.2) ∨
      (∃ kv ∈ olds.Triggers.entries, news.Triggers.get kv.1 = none) := by
  rw [loopsResult, oldLoop_changed, newLoop_changed]
  simp

/-! ## Entry lists against mappings -/

theorem GoMap.mem_entries_of_get {V : Type} {m : GoMap V} {k : String} {v : V}
    (h : m.get k = some v) : (k, v) ∈ m.entries :=
  Entries.mem_of_get h

theorem GoMap.get_ne_none_of_mem_entries {V : Type} {m : GoMap V} {k : String} {v : V}
    (h : (k, v) ∈ m.entries) : m.get k ≠ none :=
  Entries.get_ne_none_of_mem h

theorem GoMap.get_of_mem_entries {V : Type} {m : GoMap V} {k : String} {v : V}
    (hwf : m.WF) (h : (k, v) ∈ m.entries) : m.get k = some v :=
  Entries.get_of_mem_nodup hwf h

theorem loopsResult_changed_of_differ (olds : StatefulStringState) (news : StatefulStringArgs)
    (h : ∃ k, olds.Triggers.get k ≠ news.Triggers.get k) :
    (loopsResult olds news).triggerChanged = true := by
  obtain ⟨k, hk⟩ := h
  rw [loopsResult_changed]
  cases hn : news.Triggers.get k with
  | some v =>
    left
    rw [hn] at hk
    exact ⟨(k, v), GoMap.mem_entries_of_get hn, hk⟩
  | none =>
    right
    rw [hn] at hk
    cases ho : olds.Triggers.get k with
    | none => exact absurd ho hk
    | some w => exact ⟨(k, w), GoMap.mem_entries_of_get ho, hn⟩

theorem loopsResult_of_equal (olds : StatefulStringState) (news : StatefulStringArgs)
    (hwf : news.Triggers.WF) (heq : ∀ k, olds.Triggers.get k = news.Triggers.get k) :
    loopsResult olds news =
      { triggerChanged := false
        changeMap := []
        statefulStringArgs := { String := olds.String, Triggers := news.Triggers } } := by
  rw [loopsResult, newLoop_same, oldLoop_same]
  · intro kv hkv
    rw [← heq]
    exact GoMap.get_ne_none_of_mem_entries hkv
  · intro kv hkv
    rw [heq]
    exact GoMap.get_of_mem_entries hwf hkv

theorem differ_of_loopsResult_changed (olds : StatefulStringState) (news : StatefulStringArgs)
    (hwf : news.Triggers.WF) (h : (loopsResult olds news).triggerChanged = true) :
    ∃ k, olds.Triggers.get k ≠ news.Triggers.get k := by
  by_contra hc
  have heq : ∀ k, olds.Triggers.get k = news.Triggers.get k := by
    intro k
    by_contra hk
    exact hc ⟨k, hk⟩
  rw [loopsResult_of_equal olds news hwf heq] at h
  simp at h

theorem loopsResult_get_delete (olds : StatefulStringState) (news : StatefulStringArgs)
    (K : String) (hn : news.Triggers.get K = none) (ho : olds.Triggers.get K ≠ none) :
    (loopsResult olds news).changeMap.get ("triggers." ++ K) = some deleteRecord := by
  rw [loopsResult]
  apply oldLoop_get_written
  right
  cases hv : olds.Triggers.get K with
  | none => exact absurd hv ho
  | some w => exact ⟨(K, w), GoMap.mem_entries_of_get hv, rfl, hn⟩

theorem loopsResult_get_new (olds : StatefulStringState) (news : StatefulStringArgs)
    (K : String) (b : String) (hn : news.Triggers.get K = some b)
    (ho : olds.Triggers.get K ≠ some b) :
    (loopsResult olds news).changeMap.get ("triggers." ++ K) = some (newRecord olds K) := by
  rw [loopsResult, oldLoop_get_unchanged]
  · apply newLoop_get_written
    right
    exact ⟨(K, b), GoMap.mem_entries_of_get hn, rfl, ho⟩
  · intro kv _ hp
    rw [triggers_path_inj hp, hn]
    simp

theorem loopsResult_get_none (olds : StatefulStringState) (news : StatefulStringArgs)
    (K : String) (hwf : news.Triggers.WF) (heq : olds.Triggers.get K = news.Triggers.get K) :
    (loopsResult olds news).changeMap.get ("triggers." ++ K) = none := by
  rw [loopsResult, oldLoop_get_unchanged, newLoop_get_unchanged]
  · rfl
  · intro kv hkv hp
    have hk := triggers_path_inj hp
    have hg := GoMap.get_of_mem_entries hwf hkv
    rw [hk] at hg ⊢
    rw [heq, hg]
  · intro kv hkv hp
    have hk := triggers_path_inj hp
    have hg := GoMap.get_ne_none_of_mem_entries hkv
    rw [hk] at hg ⊢
    rw [← heq]
    exact hg

/-! ## Update: the primary value and the triggers -/

/-- C1: when the old and the new trigger maps are equal as mappings (every key
has the same lookup result in both), `Update` returns a state whose `String`
is the old `String`, whatever the new `String` is. -/
theorem update_string_frozen (name : String) (olds : StatefulStringState)
    (news : StatefulStringArgs) (preview : Bool) (hwf : news.Triggers.WF)
    (heq : ∀ k, olds.Triggers.get k = news.Triggers.get k) :
    (Update name olds news preview).1.String = olds.String := by
  show (checkTriggerDiffAndUpdate olds news).1.statefulStringArgs.String = olds.String
  rw [check_eq, finishStep_args, loopsResult_of_equal olds news hwf heq]
  simp

/-- Instance of C1 from the test suite: old "hello, world" with {foo:bar}, new
"2" with {foo:bar} keeps "hello, world". -/
theorem update_string_frozen_witness :
    GoMap.WF (GoMap.lit [("foo", "bar")]) ∧
    (∀ k, (GoMap.lit [("foo", "bar")]).get k = (GoMap.lit [("foo", "bar")]).get k) ∧
    (Update "name" { String := "hello, world", Triggers := .lit [("foo", "bar")] }
      { String := "2", Triggers := .lit [("foo", "bar")] } false).1.String = "hello, world" :=
  ⟨by decide, fun _ => rfl,
    update_string_frozen "name" { String := "hello, world", Triggers := .lit [("foo", "bar")] }
      { String := "2", Triggers := .lit [("foo", "bar")] } false (by decide) (fun _ => rfl)⟩

/-- C2: when the old and the new trigger maps differ as mappings (some key has
different lookup results: present in one only, or present in both with
different values), `Update` returns a state whose `String` is the new
`String`. -/
theorem update_string_propagated (name : String) (olds : StatefulStringState)
    (news : StatefulStringArgs) (preview : Bool)
    (hne : ∃ k, olds.Triggers.get k ≠ news.Triggers.get k) :
    (Update name olds news preview).1.String = news.String := by
  show (checkTriggerDiffAndUpdate olds news).1.statefulStringArgs.String = news.String
  rw [check_eq, finishStep_args, if_pos (loopsResult_changed_of_differ olds news hne)]

/-- Instance of C2 from the test suite: old "1" with {foo:bar}, new "2" with
{foo:bar2} gives "2". -/
theorem update_string_propagated_witness :
    (∃ k, (GoMap.lit [("foo", "bar")]).get k ≠ (GoMap.lit [("foo", "bar2")]).get k) ∧
    (Update "name" { String := "1", Triggers := .lit [("foo", "bar")] }
      { String := "2", Triggers := .lit [("foo", "bar2")] } false).1.String = "2" :=
  ⟨⟨"foo", by decide⟩,
    update_string_propagated "name" { String := "1", Triggers := .lit [("foo", "bar")] }
      { String := "2", Triggers := .lit [("foo", "bar2")] } false ⟨"foo", by decide⟩⟩

/-- C3: `Update` always returns a state whose `Triggers` is the new trigger
map, whether or not any trigger changed. -/
theorem update_triggers_new (name : String) (olds : StatefulStringState)
    (news : StatefulStringArgs) (preview : Bool) :
    (Update name olds news preview).1.Triggers = news.Triggers := by
  show (checkTriggerDiffAndUpdate olds news).1.statefulStringArgs.Triggers = news.Triggers
  rw [check_eq, finishStep_args, loopsResult_args]
  split_ifs <;> rfl

/-! ## Diff: the change flag and the detailed diff -/

/-- C4: `Diff` reports `HasChanges` exactly when the old and the new trigger
maps differ as mappings; in particular it reports no change when the trigger
maps are the same (so also when only the `String` differs) and when both
trigger maps have no entries. -/
theorem diff_hasChanges_iff (name : String) (olds : StatefulStringState)
    (news : StatefulStringArgs) (hwf : news.Triggers.WF) :
    ((Diff name olds news).1.HasChanges = true ↔
      ∃ k, olds.Triggers.get k ≠ news.Triggers.get k) ∧
    (olds.Triggers = news.Triggers → (Diff name olds news).1.HasChanges = false) ∧
    (olds.Triggers.entries = [] → news.Triggers.entries = [] →
      (Diff name olds news).1.HasChanges = false) := by
  have hiff : (Diff name olds news).1.HasChanges = true ↔
      ∃ k, olds.Triggers.get k ≠ news.Triggers.get k := by
    show (checkTriggerDiffAndUpdate olds news).1.triggerChanged = true ↔ _
    rw [check_eq, finishStep_triggerChanged]
    exact ⟨differ_of_loopsResult_changed olds news hwf, loopsResult_changed_of_differ olds news⟩
  refine ⟨hiff, ?_, ?_⟩
  · intro h
    rw [← Bool.not_eq_true, hiff]
    rintro ⟨k, hk⟩
    exact hk (by rw [h])
  · intro h1 h2
    rw [← Bool.not_eq_true, hiff]
    rintro ⟨k, hk⟩
    exact hk (by simp [GoMap.get, h1, h2])

/-- Instance of C4 from the test suite: only the `String` differs, so no
change is reported. -/
theorem diff_hasChanges_iff_witness :
    GoMap.WF (GoMap.lit [("foo", "bar")]) ∧
    (Diff "name" { String := "1", Triggers := .lit [("foo", "bar")] }
      { String := "2", Triggers := .lit [("foo", "bar")] }).1.HasChanges = false :=
  ⟨by decide,
    (diff_hasChanges_iff "name" { String := "1", Triggers := .lit [("foo", "bar")] }
      { String := "2", Triggers := .lit [("foo", "bar")] } (by decide)).2.1 rfl⟩

/-- C5: the detailed diff of `Diff` has an entry under the path "triggers."+K
exactly when K is present in the old triggers only, or in the new triggers
only, or in both with different values. -/
theorem diff_trigger_entry_iff (name : String) (olds : StatefulStringState)
    (news : StatefulStringArgs) (K : String) (hwf : news.Triggers.WF) :
    (Diff name olds news).1.DetailedDiff.get ("triggers." ++ K) ≠ none ↔
      ((olds.Triggers.get K ≠ none ∧ news.Triggers.get K = none) ∨
       (olds.Triggers.get K = none ∧ news.Triggers.get K ≠ none) ∨
       (∃ a b, olds.Triggers.get K = some a ∧ news.Triggers.get K = some b ∧ a ≠ b)) := by
  show (checkTriggerDiffAndUpdate olds news).1.changeMap.get ("triggers." ++ K) ≠ none ↔ _
  have hp : ¬ "string" = "triggers." ++ K := fun h => triggers_path_ne_string K h.symm
  rw [check_eq, finishStep_get]
  simp only [hp, false_and, if_false]
  cases hn : news.Triggers.get K with
  | none =>
    cases ho : olds.Triggers.get K with
    | none =>
      rw [loopsResult_get_none olds news K hwf (by rw [hn, ho])]
      simp
    | some a =>
      rw [loopsResult_get_delete olds news K hn (by simp [ho])]
      simp
  | some b =>
    cases ho : olds.Triggers.get K with
    | none =>
      rw [loopsResult_get_new olds news K b hn (by simp [ho])]
      simp
    | some a =>
      by_cases hab : a = b
      · subst hab
        rw [loopsResult_get_none olds news K hwf (by rw [hn, ho])]
        simp
      · rw [loopsResult_get_new olds news K b hn (by simp [ho, hab])]
        simp [hab]

/-- Instance of C5 from the test suite: old {foo:bar, foo2:bar2} against new
{foo:barX, foo3:bar3} has an entry for the removed key foo2. -/
theorem diff_trigger_entry_iff_witness :
    GoMap.WF (GoMap.lit [("foo", "barX"), ("foo3", "bar3")]) ∧
    (Diff "name" { String := "1", Triggers := .lit [("foo", "bar"), ("foo2", "bar2")] }
      { String := "1", Triggers := .lit [("foo", "barX"), ("foo3", "bar3")] }
      ).1.DetailedDiff.get ("triggers." ++ "foo2") ≠ none :=
  ⟨by decide,
    (diff_trigger_entry_iff "name"
      { String := "1", Triggers := .lit [("foo", "bar"), ("foo2", "bar2")] }
      { String := "1", Triggers := .lit [("foo", "barX"), ("foo3", "bar3")] } "foo2"
      (by decide)).2 (Or.inl ⟨by decide, by decide⟩)⟩

/-- C6: a key K present in the new triggers and absent from the old triggers
gets the record of kind "add" under the path "triggers."+K, and `HasChanges`
is true. -/
theorem diff_trigger_add (name : String) (olds : StatefulStringState)
    (news : StatefulStringArgs) (K : String)
    (hnew : news.Triggers.get K ≠ none) (hold : olds.Triggers.get K = none) :
    (Diff name olds news).1.DetailedDiff.get ("triggers." ++ K) =
      some { Kind := "add", InputDiff := false } ∧
    (Diff name olds news).1.HasChanges = true := by
  have hp : ¬ "string" = "triggers." ++ K := fun h => triggers_path_ne_string K h.symm
  constructor
  · show (checkTriggerDiffAndUpdate olds news).1.changeMap.get ("triggers." ++ K) = _
    rw [check_eq, finishStep_get]
    simp only [hp, false_and, if_false]
    cases hn : news.Triggers.get K with
    | none => exact absurd hn hnew
    | some b =>
      rw [loopsResult_get_new olds news K b hn (by simp [hold])]
      simp [newRecord, hold]
  · show (checkTriggerDiffAndUpdate olds news).1.triggerChanged = true
    rw [check_eq, finishStep_triggerChanged]
    exact loopsResult_changed_of_differ olds news ⟨K, by rw [hold]; exact fun h => hnew h.symm⟩

/-- Instance of C6: old triggers {} against new triggers {foo:bar} gives
exactly the detailed diff {"triggers.foo": add}. -/
theorem diff_trigger_add_witness :
    ((GoMap.lit [("foo", "bar")]).get "foo" ≠ none ∧
      (GoMap.lit ([] : Entries String)).get "foo" = none) ∧
    ((Diff "name" { String := "1", Triggers := .lit [] }
        { String := "1", Triggers := .lit [("foo", "bar")] }).1.DetailedDiff.get
          ("triggers." ++ "foo") = some { Kind := "add", InputDiff := false } ∧
      (Diff "name" { String := "1", Triggers := .lit [] }
        { String := "1", Triggers := .lit [("foo", "bar")] }).1.HasChanges = true) ∧
    (Diff "name" { String := "1", Triggers := .lit [] }
      { String := "1", Triggers := .lit [("foo", "bar")] }).1.DetailedDiff =
        .lit [("triggers.foo", { Kind := "add", InputDiff := false })] :=
  ⟨⟨by decide, by decide⟩,
    diff_trigger_add "name" { String := "1", Triggers := .lit [] }
      { String := "1", Triggers := .lit [("foo", "bar")] } "foo" (by decide) (by decide),
    by decide⟩

/-- C7: a key K present in both trigger maps with different values gets the
record of kind "update" under the path "triggers."+K, and `HasChanges` is
true. -/
theorem diff_trigger_update (name : String) (olds : StatefulStringState)
    (news : StatefulStringArgs) (K : String) (a b : String)
    (hold : olds.Triggers.get K = some a) (hnew : news.Triggers.get K = some b)
    (hab : b ≠ a) :
    (Diff name olds news).1.DetailedDiff.get ("triggers." ++ K) =
      some { Kind := "update", InputDiff := false } ∧
    (Diff name olds news).1.HasChanges = true := by
  have hp : ¬ "string" = "triggers." ++ K := fun h => triggers_path_ne_string K h.symm
  have hne : ¬ a = b := fun h => hab h.symm
  constructor
  · show (checkTriggerDiffAndUpdate olds news).1.changeMap.get ("triggers." ++ K) = _
    rw [check_eq, finishStep_get]
    simp only [hp, false_and, if_false]
    rw [loopsResult_get_new olds news K b hnew (by simp [hold, hne])]
    simp [newRecord, hold]
  · show (checkTriggerDiffAndUpdate olds news).1.triggerChanged = true
    rw [check_eq, finishStep_triggerChanged]
    exact loopsResult_changed_of_differ olds news ⟨K, by simp [hold, hnew, hne]⟩

/-- Instance of C7: old triggers {foo:bar} against new triggers {foo:bar2}
gives exactly the detailed diff {"triggers.foo": update}. -/
theorem diff_trigger_update_witness :
    ((GoMap.lit [("foo", "bar")]).get "foo" = some "bar" ∧
      (GoMap.lit [("foo", "bar2")]).get "foo" = some "bar2" ∧ "bar2" ≠ "bar") ∧
    ((Diff "name" { String := "1", Triggers := .lit [("foo", "bar")] }
        { String := "1", Triggers := .lit [("foo", "bar2")] }).1.DetailedDiff.get
          ("triggers." ++ "foo") = some { Kind := "update", InputDiff := false } ∧
      (Diff "name" { String := "1", Triggers := .lit [("foo", "bar")] }
        { String := "1", Triggers := .lit [("foo", "bar2")] }).1.HasChanges = true) ∧
    (Diff "name" { String := "1", Triggers := .lit [("foo", "bar")] }
      { String := "1", Triggers := .lit [("foo", "bar2")] }).1.DetailedDiff =
        .lit [("triggers.foo", { Kind := "update", InputDiff := false })] :=
  ⟨⟨by decide, by decide, by decide⟩,
    diff_trigger_update "name" { String := "1", Triggers := .lit [("foo", "bar")] }
      { String := "1", Triggers := .lit [("foo", "bar2")] } "foo" "bar" "bar2"
      (by decide) (by decide) (by decide),
    by decide⟩

/-- C8: a key K present in the old triggers and absent from the new triggers
gets the record of kind "delete" under the path "triggers."+K, and
`HasChanges` is true. -/
theorem diff_trigger_delete (name : String) (olds : StatefulStringState)
    (news : StatefulStringArgs) (K : String)
    (hold : olds.Triggers.get K ≠ none) (hnew : news.Triggers.get K = none) :
    (Diff name olds news).1.DetailedDiff.get ("triggers." ++ K) =
      some { Kind := "delete", InputDiff := false } ∧
    (Diff name olds news).1.HasChanges = true := by
  have hp : ¬ "string" = "triggers." ++ K := fun h => triggers_path_ne_string K h.symm
  constructor
  · show (checkTriggerDiffAndUpdate olds news).1.changeMap.get ("triggers." ++ K) = _
    rw [check_eq, finishStep_get]
    simp only [hp, false_and, if_false]
    rw [loopsResult_get_delete olds news K hnew hold]
    rfl
  · show (checkTriggerDiffAndUpdate olds news).1.triggerChanged = true
    rw [check_eq, finishStep_triggerChanged]
    exact loopsResult_changed_of_differ olds news ⟨K, by rw [hnew]; exact hold⟩

/-- Instance of C8: old triggers {foo:bar, foo2:bar2} against new triggers
{foo:bar} gives exactly the detailed diff {"triggers.foo2": delete}. -/
theorem diff_trigger_delete_witness :
    ((GoMap.lit [("foo", "bar"), ("foo2", "bar2")]).get "foo2" ≠ none ∧
      (GoMap.lit [("foo", "bar")]).get "foo2" = none) ∧
    ((Diff "name" { String := "1", Triggers := .lit [("foo", "bar"), ("foo2", "bar2")] }
        { String := "1", Triggers := .lit [("foo", "bar")] }).1.DetailedDiff.get
          ("triggers." ++ "foo2") = some { Kind := "delete", InputDiff := false } ∧
      (Diff "name" { String := "1", Triggers := .lit [("foo", "bar"), ("foo2", "bar2")] }
        { String := "1", Triggers := .lit [("foo", "bar")] }).1.HasChanges = true) ∧
    (Diff "name" { String := "1", Triggers := .lit [("foo", "bar"), ("foo2", "bar2")] }
      { String := "1", Triggers := .lit [("foo", "bar")] }).1.DetailedDiff =
        .lit [("triggers.foo2", { Kind := "delete", InputDiff := false })] :=
  ⟨⟨by decide, by decide⟩,
    diff_trigger_delete "name"
      { String := "1", Triggers := .lit [("foo", "bar"), ("foo2", "bar2")] }
      { String := "1", Triggers := .lit [("foo", "bar")] } "foo2" (by decide) (by decide),
    by decide⟩

/-- C9: the detailed diff of `Diff` has an entry under the path "string"
exactly when the trigger maps differ as mappings and the new `String` differs
from the old one; that entry has kind "update"; and when the trigger maps are
equal as mappings there is no "string" entry, even if the strings differ. -/
theorem diff_string_entry (name : String) (olds : StatefulStringState)
    (news : StatefulStringArgs) (hwf : news.Triggers.WF) :
    ((Diff name olds news).1.DetailedDiff.get "string" ≠ none ↔
      (∃ k, olds.Triggers.get k ≠ news.Triggers.get k) ∧ news.String ≠ olds.String) ∧
    (∀ d, (Diff name olds news).1.DetailedDiff.get "string" = some d →
      d = { Kind := "update", InputDiff := false }) ∧
    ((∀ k, olds.Triggers.get k = news.Triggers.get k) →
      (Diff name olds news).1.DetailedDiff.get "string" = none) := by
  have hval : (Diff name olds news).1.DetailedDiff.get "string" =
      if (loopsResult olds news).triggerChanged = true ∧ news.String ≠ olds.String
      then some { Kind := "update", InputDiff := false } else none := by
    show (checkTriggerDiffAndUpdate olds news).1.changeMap.get "string" = _
    rw [check_eq, finishStep_get, loopsResult_get_string]
    simp
  have hch : (loopsResult olds news).triggerChanged = true ↔
      ∃ k, olds.Triggers.get k ≠ news.Triggers.get k :=
    ⟨differ_of_loopsResult_changed olds news hwf, loopsResult_changed_of_differ olds news⟩
  rw [hval]
  refine ⟨?_, ?_, ?_⟩
  · rw [← hch]
    by_cases h : (loopsResult olds news).triggerChanged = true ∧ news.String ≠ olds.String
    · simp [h]
    · simp [h]
  · intro d hd
    by_cases h : (loopsResult olds news).triggerChanged = true ∧ news.String ≠ olds.String
    · rw [if_pos h] at hd
      exact (Option.some.inj hd).symm
    · rw [if_neg h] at hd
      exact absurd hd (by simp)
  · intro heq
    have h : ¬ ((loopsResult olds news).triggerChanged = true ∧
        news.String ≠ olds.String) := by
      rintro ⟨hc, _⟩
      obtain ⟨k, hk⟩ := hch.1 hc
      exact hk (heq k)
    rw [if_neg h]

/-- Instance of C9 from the test suite: the trigger foo2 changes and the
`String` goes from "1" to "2", so there is a "string" entry. -/
theorem diff_string_entry_witness :
    GoMap.WF (GoMap.lit [("foo", "bar"), ("foo2", "bar3")]) ∧
    (Diff "name" { String := "1", Triggers := .lit [("foo", "bar"), ("foo2", "bar2")] }
      { String := "2", Triggers := .lit [("foo", "bar"), ("foo2", "bar3")] }
      ).1.DetailedDiff.get "string" ≠ none :=
  ⟨by decide,
    (diff_string_entry "name"
      { String := "1", Triggers := .lit [("foo", "bar"), ("foo2", "bar2")] }
      { String := "2", Triggers := .lit [("foo", "bar"), ("foo2", "bar3")] }
      (by decide)).1.2 ⟨⟨"foo2", by decide⟩, by decide⟩⟩

/-- C10: the diff of a state against itself viewed as input reports no change
and has an empty detailed diff. -/
theorem diff_noop (name : String) (S : StatefulStringState) (hwf : S.Triggers.WF) :
    (Diff name S S.toStatefulStringArgs).1.HasChanges = false ∧
    (Diff name S S.toStatefulStringArgs).1.DetailedDiff = .lit [] := by
  have h := loopsResult_of_equal S S.toStatefulStringArgs hwf (fun _ => rfl)
  constructor
  · show (checkTriggerDiffAndUpdate S S.toStatefulStringArgs).1.triggerChanged = false
    rw [check_eq, finishStep_triggerChanged, h]
  · show GoMap.lit (checkTriggerDiffAndUpdate S S.toStatefulStringArgs).1.changeMap = .lit []
    rw [check_eq, finishStep_of_unchanged _ _ _ (by rw [h]), h]

/-- Instance of C10 from the test suite: state "1" with {foo:bar, foo2:bar2}
against itself. -/
theorem diff_noop_witness :
    GoMap.WF (GoMap.lit [("foo", "bar"), ("foo2", "bar2")]) ∧
    (Diff "name" { String := "1", Triggers := .lit [("foo", "bar"), ("foo2", "bar2")] }
      { String := "1", Triggers := .lit [("foo", "bar"), ("foo2", "bar2")] }).1.HasChanges =
        false ∧
    (Diff "name" { String := "1", Triggers := .lit [("foo", "bar"), ("foo2", "bar2")] }
      { String := "1", Triggers := .lit [("foo", "bar"), ("foo2", "bar2")] }).1.DetailedDiff =
        .lit [] :=
  ⟨by decide,
    diff_noop "name" { String := "1", Triggers := .lit [("foo", "bar"), ("foo2", "bar2")] }
      (by decide)⟩

/-! ## Create and Check -/

/-- C11: `Create` returns the name as id, a state whose `String` and
`Triggers` are those of the input, and the nil error, for every name, input
and preview flag. -/
theorem create_verbatim (name : String) (input : StatefulStringArgs) (preview : Bool) :
    (Create name input preview).1 = name ∧
    (Create name input preview).2.1.String = input.String ∧
    (Create name input preview).2.1.Triggers = input.Triggers ∧
    (Create name input preview).2.2 = none :=
  ⟨rfl, rfl, rfl, rfl⟩

/-- C13: `Check` returns no validation failure and the nil error, for every
name and every old and new inputs. -/
theorem check_no_failures (name : String) (oldInputs newInputs : PropertyMap) :
    (Check name oldInputs newInputs).1.Failures.len = 0 ∧
    (Check name oldInputs newInputs).2 = none :=
  ⟨rfl, rfl⟩

/-! ## Totality -/

/-- C14: `checkTriggerDiffAndUpdate`, `Update`, `Diff` and `Create` return a
result together with the nil error for every name, old state and new input;
in particular with nil trigger maps on both sides, where the result is the
unchanged flag, the empty change map and the old `String`. -/
theorem operations_total (name : String) (olds : StatefulStringState)
    (news : StatefulStringArgs) (preview : Bool) :
    (∃ r, checkTriggerDiffAndUpdate olds news = (r, none)) ∧
    (∃ st, Update name olds news preview = (st, none)) ∧
    (∃ d, Diff name olds news = (d, none)) ∧
    (∃ id st, Create name news preview = (id, st, none)) ∧
    checkTriggerDiffAndUpdate { String := olds.String, Triggers := .nil }
        { String := news.String, Triggers := .nil } =
      ({ triggerChanged := false
         changeMap := []
         statefulStringArgs := { String := olds.String, Triggers := .nil } }, none) ∧
    checkTriggerDiffAndUpdate { String := olds.String, Triggers := .lit [] }
        { String := news.String, Triggers := .nil } =
      ({ triggerChanged := false
         changeMap := []
         statefulStringArgs := { String := olds.String, Triggers := .nil } }, none) :=
  ⟨⟨_, rfl⟩, ⟨_, rfl⟩, ⟨_, rfl⟩, ⟨_, _, rfl⟩, rfl, rfl⟩

/-! ## More facts about map entries -/

theorem Entries.mem_set {V : Type} {es : Entries V} {k : String} {v : V} {e : String × V}
    (h : e ∈ es.set k v) : e ∈ es ∨ e = (k, v) := by
  induction es with
  | nil =>
    simp only [Entries.set, List.mem_singleton] at h
    exact Or.inr h
  | cons x es ih =>
    obtain ⟨a, b⟩ := x
    by_cases hk : a = k
    · subst hk
      simp only [Entries.set, if_true, List.mem_cons] at h
      rcases h with h | h
      · exact Or.inr h
      · exact Or.inl (List.mem_cons_of_mem _ h)
    · simp only [Entries.set, hk, if_false, List.mem_cons] at h
      rcases h with h | h
      · exact Or.inl (h ▸ List.mem_cons_self _ _)
      · rcases ih h with h2 | h2
        · exact Or.inl (List.mem_cons_of_mem _ h2)
        · exact Or.inr h2

theorem Entries.set_nodup {V : Type} {es : Entries V} (k : String) (v : V)
    (hn : (es.map Prod.fst).Nodup) : ((es.set k v).map Prod.fst).Nodup := by
  induction es with
  | nil => simp [Entries.set]
  | cons x es ih =>
    obtain ⟨a, b⟩ := x
    simp only [List.map_cons, List.nodup_cons] at hn
    by_cases hk : a = k
    · subst hk
      simp only [Entries.set, if_true, List.map_cons, List.nodup_cons]
      exact hn
    · simp only [Entries.set, hk, if_false, List.map_cons, List.nodup_cons]
      refine ⟨?_, ih hn.2⟩
      intro hmem
      obtain ⟨e, he, hea⟩ := List.mem_map.1 hmem
      rcases Entries.mem_set he with h2 | h2
      · exact hn.1 (List.mem_map.2 ⟨e, h2, hea⟩)
      · subst h2
        exact hk hea.symm

theorem Entries.get_perm {V : Type} {es es' : Entries V} (hp : es.Perm es')
    (hn : (es.map Prod.fst).Nodup) (k : String) : es.get k = es'.get k := by
  have hn' : (es'.map Prod.fst).Nodup := (hp.map Prod.fst).nodup_iff.1 hn
  cases h : es.get k with
  | some v =>
    exact (Entries.get_of_mem_nodup hn' (hp.subset (Entries.mem_of_get h))).symm
  | none =>
    cases h' : es'.get k with
    | none => rfl
    | some w =>
      have h2 := Entries.get_of_mem_nodup hn (hp.symm.subset (Entries.mem_of_get h'))
      rw [h] at h2
      exact h2

theorem foldl_invariant {α β : Type} (P : α → Prop) (f : α → β → α) (l : List β) (a : α)
    (h0 : P a) (hstep : ∀ x b, b ∈ l → P x → P (f x b)) : P (l.foldl f a) := by
  induction l generalizing a with
  | nil => exact h0
  | cons b l ih =>
    rw [List.foldl_cons]
    exact ih (f a b) (hstep a b (List.mem_cons_self _ _) h0)
      (fun x c hc hx => hstep x c (List.mem_cons_of_mem _ hc) hx)

/-! ## What the loops can write -/

theorem newTriggerStep_changeMap (olds : StatefulStringState)
    (r : checkTriggerDiffAndUpdateResult) (kv : String × String) :
    (newTriggerStep olds r kv).changeMap = r.changeMap ∨
    (newTriggerStep olds r kv).changeMap =
      r.changeMap.set ("triggers." ++ kv.1) { Kind := "add", InputDiff := false } ∨
    (newTriggerStep olds r kv).changeMap =
      r.changeMap.set ("triggers." ++ kv.1) { Kind := "update", InputDiff := false } := by
  cases h : olds.Triggers.get kv.1 with
  | none => simp [newTriggerStep, h]
  | some w =>
    by_cases h2 : kv.2 = w <;> simp [newTriggerStep, h, h2]

theorem oldTriggerStep_changeMap (news : StatefulStringArgs)
    (r : checkTriggerDiffAndUpdateResult) (kv : String × String) :
    (oldTriggerStep news r kv).changeMap = r.changeMap ∨
    (oldTriggerStep news r kv).changeMap =
      r.changeMap.set ("triggers." ++ kv.1) { Kind := "delete", InputDiff := false } := by
  cases h : news.Triggers.get kv.1 <;> simp [oldTriggerStep, h]

theorem finishStep_changeMap (olds : StatefulStringState) (news : StatefulStringArgs)
    (r : checkTriggerDiffAndUpdateResult) :
    (finishStep olds news r).changeMap = r.changeMap ∨
    (finishStep olds news r).changeMap =
      r.changeMap.set "string" { Kind := "update", InputDiff := false } := by
  unfold finishStep
  split_ifs <;> simp

/-- Invariant principle for the change map after both loops: a property that
holds of the empty map and survives every assignment of an "add", "update" or
"delete" record under the path of a key of the old or the new triggers holds
of the change map. -/
theorem loopsResult_changeMap_inv (olds : StatefulStringState) (news : StatefulStringArgs)
    (P : Entries PropertyDiff → Prop) (h0 : P [])
    (hset : ∀ (es : Entries PropertyDiff) (K : String) (d : PropertyDiff), P es →
      (olds.Triggers.get K ≠ none ∨ news.Triggers.get K ≠ none) →
      (d.Kind = "add" ∨ d.Kind = "update" ∨ d.Kind = "delete") → d.InputDiff = false →
      P (es.set ("triggers." ++ K) d)) :
    P (loopsResult olds news).changeMap := by
  unfold loopsResult
  refine foldl_invariant (fun r : checkTriggerDiffAndUpdateResult => P r.changeMap)
    (oldTriggerStep news) olds.Triggers.entries _ ?_ ?_
  · refine foldl_invariant (fun r : checkTriggerDiffAndUpdateResult => P r.changeMap)
      (newTriggerStep olds) news.Triggers.entries _ h0 ?_
    intro x kv hkv hx
    have hk : news.Triggers.get kv.1 ≠ none := GoMap.get_ne_none_of_mem_entries hkv
    show P (newTriggerStep olds x kv).changeMap
    rcases newTriggerStep_changeMap olds x kv with h | h | h
    · rw [h]; exact hx
    · rw [h]; exact hset _ _ _ hx (Or.inr hk) (Or.inl rfl) rfl
    · rw [h]; exact hset _ _ _ hx (Or.inr hk) (Or.inr (Or.inl rfl)) rfl
  · intro x kv hkv hx
    have hk : olds.Triggers.get kv.1 ≠ none := GoMap.get_ne_none_of_mem_entries hkv
    show P (oldTriggerStep news x kv).changeMap
    rcases oldTriggerStep_changeMap news x kv with h | h
    · rw [h]; exact hx
    · rw [h]; exact hset _ _ _ hx (Or.inl hk) (Or.inr (Or.inr rfl)) rfl

theorem check_changeMap_nodup (olds : StatefulStringState) (news : StatefulStringArgs) :
    ((checkTriggerDiffAndUpdate olds news).1.changeMap.map Prod.fst).Nodup := by
  have h : ((loopsResult olds news).changeMap.map Prod.fst).Nodup :=
    loopsResult_changeMap_inv olds news (fun es => (es.map Prod.fst).Nodup) List.nodup_nil
      (fun es K d hes _ _ _ => Entries.set_nodup _ d hes)
  rw [check_eq]
  rcases finishStep_changeMap olds news (loopsResult olds news) with h2 | h2
  · rw [h2]; exact h
  · rw [h2]; exact Entries.set_nodup _ _ h

/-! ## Lookups of the change map as functions of the trigger lookups -/

theorem loopsResult_changed_iff (olds : StatefulStringState) (news : StatefulStringArgs)
    (hwf : news.Triggers.WF) :
    (loopsResult olds news).triggerChanged = true ↔
      ∃ k, olds.Triggers.get k ≠ news.Triggers.get k :=
  ⟨differ_of_loopsResult_changed olds news hwf, loopsResult_changed_of_differ olds news⟩

theorem loopsResult_get_path (olds : StatefulStringState) (news : StatefulStringArgs)
    (hwf : news.Triggers.WF) (K : String) :
    (loopsResult olds news).changeMap.get ("triggers." ++ K) =
      pathRecord (olds.Triggers.get K) (news.Triggers.get K) := by
  cases hn : news.Triggers.get K with
  | none =>
    cases ho : olds.Triggers.get K with
    | none =>
      rw [loopsResult_get_none olds news K hwf (by rw [hn, ho])]
      rfl
    | some a =>
      rw [loopsResult_get_delete olds news K hn (by simp [ho])]
      rfl
  | some b =>
    cases ho : olds.Triggers.get K with
    | none =>
      rw [loopsResult_get_new olds news K b hn (by simp [ho])]
      simp [newRecord, ho, pathRecord]
    | some a =>
      by_cases hab : a = b
      · subst hab
        rw [loopsResult_get_none olds news K hwf (by rw [hn, ho])]
        simp [pathRecord]
      · rw [loopsResult_get_new olds news K b hn (by simp [ho, hab])]
        simp [newRecord, ho, pathRecord, hab]

theorem loopsResult_get_other (olds : StatefulStringState) (news : StatefulStringArgs)
    (p : String) (hp : ∀ K : String, "triggers." ++ K ≠ p) :
    (loopsResult olds news).changeMap.get p = none := by
  rw [loopsResult, oldLoop_get_unchanged, newLoop_get_unchanged]
  · rfl
  · intro kv _ h
    exact absurd h (hp kv.1)
  · intro kv _ h
    exact absurd h (hp kv.1)

/-- The result of `checkTriggerDiffAndUpdate`, read as mappings, depends only
on the two strings and on the lookups of the two trigger maps. -/
theorem check_ext (olds olds1 : StatefulStringState) (news news1 : StatefulStringArgs)
    (hwf : news.Triggers.WF) (hwf1 : news1.Triggers.WF)
    (hso : olds1.String = olds.String) (hsn : news1.String = news.String)
    (ho : ∀ k, olds1.Triggers.get k = olds.Triggers.get k)
    (hn : ∀ k, news1.Triggers.get k = news.Triggers.get k) :
    (checkTriggerDiffAndUpdate olds1 news1).1.triggerChanged =
      (checkTriggerDiffAndUpdate olds news).1.triggerChanged ∧
    (∀ p, (checkTriggerDiffAndUpdate olds1 news1).1.changeMap.get p =
      (checkTriggerDiffAndUpdate olds news).1.changeMap.get p) ∧
    (checkTriggerDiffAndUpdate olds1 news1).1.statefulStringArgs.String =
      (checkTriggerDiffAndUpdate olds news).1.statefulStringArgs.String ∧
    (∀ k, (checkTriggerDiffAndUpdate olds1 news1).1.statefulStringArgs.Triggers.get k =
      (checkTriggerDiffAndUpdate olds news).1.statefulStringArgs.Triggers.get k) := by
  have htc : (loopsResult olds1 news1).triggerChanged = (loopsResult olds news).triggerChanged := by
    rw [Bool.eq_iff_iff, loopsResult_changed_iff olds1 news1 hwf1,
      loopsResult_changed_iff olds news hwf]
    constructor
    · rintro ⟨k, hk⟩
      exact ⟨k, by rw [← ho, ← hn]; exact hk⟩
    · rintro ⟨k, hk⟩
      exact ⟨k, by rw [ho, hn]; exact hk⟩
  have hget : ∀ p, (loopsResult olds1 news1).changeMap.get p =
      (loopsResult olds news).changeMap.get p := by
    intro p
    by_cases hp : ∃ K : String, "triggers." ++ K = p
    · obtain ⟨K, rfl⟩ := hp
      rw [loopsResult_get_path olds1 news1 hwf1, loopsResult_get_path olds news hwf, ho, hn]
    · have hp2 : ∀ K : String, "triggers." ++ K ≠ p := fun K h => hp ⟨K, h⟩
      rw [loopsResult_get_other olds1 news1 p hp2, loopsResult_get_other olds news p hp2]
  simp only [check_eq]
  refine ⟨?_, ?_, ?_, ?_⟩
  · rw [finishStep_triggerChanged, finishStep_triggerChanged, htc]
  · intro p
    rw [finishStep_get, finishStep_get, htc, hget, hso, hsn]
  · rw [finishStep_args, finishStep_args, htc, loopsResult_args, loopsResult_args]
    split_ifs
    · exact hsn
    · exact hso
  · intro k
    rw [finishStep_args, finishStep_args, htc, loopsResult_args, loopsResult_args]
    split_ifs
    · exact hn k
    · exact hn k

/-! ## Order of iteration -/

/-- C16: when the entries of the old and of the new trigger map are visited
in another order (the entry lists are permuted), `checkTriggerDiffAndUpdate`
gives the same `triggerChanged`, the same change map as a mapping, the same
resulting `String` and the same resulting `Triggers` as a mapping; so do
`Diff` and `Update`. -/
theorem check_order_independent (name : String) (preview : Bool)
    (olds : StatefulStringState) (news : StatefulStringArgs)
    (oldTriggers newTriggers : GoMap String)
    (hwo : olds.Triggers.WF) (hwn : news.Triggers.WF)
    (hpo : olds.Triggers.entries.Perm oldTriggers.entries)
    (hpn : news.Triggers.entries.Perm newTriggers.entries) :
    (checkTriggerDiffAndUpdate { String := olds.String, Triggers := oldTriggers }
        { String := news.String, Triggers := newTriggers }).1.triggerChanged =
      (checkTriggerDiffAndUpdate olds news).1.triggerChanged ∧
    (∀ p, (checkTriggerDiffAndUpdate { String := olds.String, Triggers := oldTriggers }
        { String := news.String, Triggers := newTriggers }).1.changeMap.get p =
      (checkTriggerDiffAndUpdate olds news).1.changeMap.get p) ∧
    (checkTriggerDiffAndUpdate { String := olds.String, Triggers := oldTriggers }
        { String := news.String, Triggers := newTriggers }).1.statefulStringArgs.String =
      (checkTriggerDiffAndUpdate olds news).1.statefulStringArgs.String ∧
    (∀ k, (checkTriggerDiffAndUpdate { String := olds.String, Triggers := oldTriggers }
        { String := news.String, Triggers := newTriggers }).1.statefulStringArgs.Triggers.get k =
      (checkTriggerDiffAndUpdate olds news).1.statefulStringArgs.Triggers.get k) ∧
    (Diff name { String := olds.String, Triggers := oldTriggers }
        { String := news.String, Triggers := newTriggers }).1.HasChanges =
      (Diff name olds news).1.HasChanges ∧
    (∀ p, (Diff name { String := olds.String, Triggers := oldTriggers }
        { String := news.String, Triggers := newTriggers }).1.DetailedDiff.get p =
      (Diff name olds news).1.DetailedDiff.get p) ∧
    (Update name { String := olds.String, Triggers := oldTriggers }
        { String := news.String, Triggers := newTriggers } preview).1.String =
      (Update name olds news preview).1.String ∧
    (∀ k, (Update name { String := olds.String, Triggers := oldTriggers }
        { String := news.String, Triggers := newTriggers } preview).1.Triggers.get k =
      (Update name olds news preview).1.Triggers.get k) := by
  have hwn1 : newTriggers.WF := (hpn.map Prod.fst).nodup_iff.1 hwn
  have h := check_ext olds { String := olds.String, Triggers := oldTriggers } news
    { String := news.String, Triggers := newTriggers } hwn hwn1 rfl rfl
    (fun k => (Entries.get_perm hpo hwo k).symm)
    (fun k => (Entries.get_perm hpn hwn k).symm)
  exact ⟨h.1, h.2.1, h.2.2.1, h.2.2.2, h.1, h.2.1, h.2.2.1, h.2.2.2⟩

/-- Instance of C16: old {foo:bar, foo2:bar2} and new {foo:barX, foo3:bar3},
each visited in the reverse order, give the same change flag. -/
theorem check_order_independent_witness :
    (GoMap.WF (GoMap.lit [("foo", "bar"), ("foo2", "bar2")]) ∧
      GoMap.WF (GoMap.lit [("foo", "barX"), ("foo3", "bar3")]) ∧
      (GoMap.lit [("foo", "bar"), ("foo2", "bar2")]).entries.Perm
        (GoMap.lit [("foo2", "bar2"), ("foo", "bar")]).entries ∧
      (GoMap.lit [("foo", "barX"), ("foo3", "bar3")]).entries.Perm
        (GoMap.lit [("foo3", "bar3"), ("foo", "barX")]).entries) ∧
    (checkTriggerDiffAndUpdate
        { String := "1", Triggers := .lit [("foo2", "bar2"), ("foo", "bar")] }
        { String := "2", Triggers := .lit [("foo3", "bar3"), ("foo", "barX")] }).1.triggerChanged =
      (checkTriggerDiffAndUpdate
        { String := "1", Triggers := .lit [("foo", "bar"), ("foo2", "bar2")] }
        { String := "2", Triggers := .lit [("foo", "barX"), ("foo3", "bar3")] }).1.triggerChanged :=
  ⟨⟨by decide, by decide, List.Perm.swap _ _ _, List.Perm.swap _ _ _⟩,
    (check_order_independent "name" false
      { String := "1", Triggers := .lit [("foo", "bar"), ("foo2", "bar2")] }
      { String := "2", Triggers := .lit [("foo", "barX"), ("foo3", "bar3")] }
      (.lit [("foo2", "bar2"), ("foo", "bar")]) (.lit [("foo3", "bar3"), ("foo", "barX")])
      (by decide) (by decide) (List.Perm.swap _ _ _) (List.Perm.swap _ _ _)).1⟩

/-! ## Shape of the detailed diff -/

/-- C17: every entry of the detailed diff of `Diff` has the path "string" or
the path "triggers."+K of a key K of the old or the new triggers, a kind among
"add", "update" and "delete", and `InputDiff` false; and old triggers
{foo:bar, foo2:bar2} against new triggers {foo:barX, foo3:bar3} with equal
strings give exactly the three entries foo: update, foo3: add, foo2: delete. -/
theorem diff_entries_shape :
    (∀ (name : String) (olds : StatefulStringState) (news : StatefulStringArgs)
      (e : String × PropertyDiff), e ∈ (Diff name olds news).1.DetailedDiff.entries →
        (e.1 = "string" ∨ ∃ K : String, e.1 = "triggers." ++ K ∧
          (olds.Triggers.get K ≠ none ∨ news.Triggers.get K ≠ none)) ∧
        (e.2.Kind = "add" ∨ e.2.Kind = "update" ∨ e.2.Kind = "delete") ∧
        e.2.InputDiff = false) ∧
    (Diff "name" { String := "1", Triggers := .lit [("foo", "bar"), ("foo2", "bar2")] }
        { String := "1", Triggers := .lit [("foo", "barX"), ("foo3", "bar3")] }).1 =
      { HasChanges := true
        DetailedDiff := .lit [("triggers.foo", { Kind := "update", InputDiff := false }),
          ("triggers.foo3", { Kind := "add", InputDiff := false }),
          ("triggers.foo2", { Kind := "delete", InputDiff := false })] } := by
  refine ⟨?_, by decide⟩
  intro name olds news
  show ∀ e ∈ (checkTriggerDiffAndUpdate olds news).1.changeMap, _
  have h := loopsResult_changeMap_inv olds news
    (fun es => ∀ e ∈ es,
      (e.1 = "string" ∨ ∃ K : String, e.1 = "triggers." ++ K ∧
        (olds.Triggers.get K ≠ none ∨ news.Triggers.get K ≠ none)) ∧
      (e.2.Kind = "add" ∨ e.2.Kind = "update" ∨ e.2.Kind = "delete") ∧
      e.2.InputDiff = false)
    (fun e he => absurd he (List.not_mem_nil e))
    (by
      intro es K d hes hK hd hi e he
      rcases Entries.mem_set he with h2 | h2
      · exact hes e h2
      · subst h2
        exact ⟨Or.inr ⟨K, rfl, hK⟩, hd, hi⟩)
  rw [check_eq]
  intro e he
  rcases finishStep_changeMap olds news (loopsResult olds news) with h2 | h2
  · rw [h2] at he
    exact h e he
  · rw [h2] at he
    rcases Entries.mem_set he with h3 | h3
    · exact h e h3
    · subst h3
      exact ⟨Or.inl rfl, Or.inr (Or.inl rfl), rfl⟩

/-! ## Update followed by Update or Diff -/

theorem check_args_triggers (olds : StatefulStringState) (news : StatefulStringArgs) :
    (checkTriggerDiffAndUpdate olds news).1.statefulStringArgs.Triggers = news.Triggers := by
  rw [check_eq, finishStep_args, loopsResult_args]
  split_ifs <;> rfl

theorem check_of_equal (olds : StatefulStringState) (news : StatefulStringArgs)
    (hwf : news.Triggers.WF) (heq : ∀ k, olds.Triggers.get k = news.Triggers.get k) :
    checkTriggerDiffAndUpdate olds news =
      ({ triggerChanged := false
         changeMap := []
         statefulStringArgs := { String := olds.String, Triggers := news.Triggers } }, none) := by
  rw [check_eq, loopsResult_of_equal olds news hwf heq, finishStep_of_unchanged _ _ _ rfl]

/-- C18: when `Diff` reports no change, the new triggers equal the old
triggers as a mapping and `Update` returns the old state: the old `String`
and, as a mapping, the old triggers. -/
theorem no_change_keeps_state (name : String) (olds : StatefulStringState)
    (news : StatefulStringArgs) (preview : Bool) (hwf : news.Triggers.WF)
    (h : (Diff name olds news).1.HasChanges = false) :
    (∀ k, news.Triggers.get k = olds.Triggers.get k) ∧
    (Update name olds news preview).1.String = olds.String ∧
    (∀ k, (Update name olds news preview).1.Triggers.get k = olds.Triggers.get k) := by
  have htc : (loopsResult olds news).triggerChanged = false := by
    have h2 : (checkTriggerDiffAndUpdate olds news).1.triggerChanged = false := h
    rw [check_eq, finishStep_triggerChanged] at h2
    exact h2
  have heq : ∀ k, olds.Triggers.get k = news.Triggers.get k := by
    intro k
    by_contra hk
    have h3 := loopsResult_changed_of_differ olds news ⟨k, hk⟩
    rw [htc] at h3
    exact absurd h3 (by simp)
  refine ⟨fun k => (heq k).symm, ?_, ?_⟩
  · show (checkTriggerDiffAndUpdate olds news).1.statefulStringArgs.String = olds.String
    rw [check_of_equal olds news hwf heq]
  · intro k
    show (checkTriggerDiffAndUpdate olds news).1.statefulStringArgs.Triggers.get k = _
    rw [check_args_triggers, heq k]

/-- Instance of C18 from the test suite: old "hello, world" with {foo:bar}
against new "2" with {foo:bar} reports no change and keeps "hello, world". -/
theorem no_change_keeps_state_witness :
    (GoMap.WF (GoMap.lit [("foo", "bar")]) ∧
      (Diff "name" { String := "hello, world", Triggers := .lit [("foo", "bar")] }
        { String := "2", Triggers := .lit [("foo", "bar")] }).1.HasChanges = false) ∧
    (Update "name" { String := "hello, world", Triggers := .lit [("foo", "bar")] }
      { String := "2", Triggers := .lit [("foo", "bar")] } false).1.String = "hello, world" :=
  ⟨⟨by decide, by decide⟩,
    (no_change_keeps_state "name"
      { String := "hello, world", Triggers := .lit [("foo", "bar")] }
      { String := "2", Triggers := .lit [("foo", "bar")] } false (by decide) (by decide)).2.1⟩

/-- C19: `Update` applied to its own result with the same new input returns
that result again. -/
theorem update_idempotent (name : String) (olds : StatefulStringState)
    (news : StatefulStringArgs) (preview : Bool) (hwf : news.Triggers.WF) :
    (Update name (Update name olds news preview).1 news preview).1 =
      (Update name olds news preview).1 := by
  have ht : (Update name olds news preview).1.Triggers = news.Triggers :=
    check_args_triggers olds news
  show ({ toStatefulStringArgs :=
      (checkTriggerDiffAndUpdate (Update name olds news preview).1 news).1.statefulStringArgs } :
      StatefulStringState) = (Update name olds news preview).1
  rw [check_of_equal _ news hwf (fun k => by rw [ht])]
  simp only
  rw [← ht]

/-- Instance of C19: old "1" with {foo:bar}, new "2" with {foo:bar2}. -/
theorem update_idempotent_witness :
    GoMap.WF (GoMap.lit [("foo", "bar2")]) ∧
    (Update "name" (Update "name" { String := "1", Triggers := .lit [("foo", "bar")] }
        { String := "2", Triggers := .lit [("foo", "bar2")] } false).1
      { String := "2", Triggers := .lit [("foo", "bar2")] } false).1 =
    (Update "name" { String := "1", Triggers := .lit [("foo", "bar")] }
      { String := "2", Triggers := .lit [("foo", "bar2")] } false).1 :=
  ⟨by decide,
    update_idempotent "name" { String := "1", Triggers := .lit [("foo", "bar")] }
      { String := "2", Triggers := .lit [("foo", "bar2")] } false (by decide)⟩

/-- C20: `Diff` of the result of `Update` against the same new input reports
no change and has an empty detailed diff, whatever `String` the update
kept. -/
theorem diff_after_update (name : String) (olds : StatefulStringState)
    (news : StatefulStringArgs) (preview : Bool) (hwf : news.Triggers.WF) :
    (Diff name (Update name olds news preview).1 news).1.HasChanges = false ∧
    (Diff name (Update name olds news preview).1 news).1.DetailedDiff = .lit [] := by
  have ht : (Update name olds news preview).1.Triggers = news.Triggers :=
    check_args_triggers olds news
  have h := check_of_equal (Update name olds news preview).1 news hwf (fun k => by rw [ht])
  constructor
  · show (checkTriggerDiffAndUpdate (Update name olds news preview).1 news).1.triggerChanged =
      false
    rw [h]
  · show GoMap.lit
      (checkTriggerDiffAndUpdate (Update name olds news preview).1 news).1.changeMap = .lit []
    rw [h]

/-- Instance of C20: old "hello, world" with {foo:bar}, new "2" with
{foo:bar}; the update keeps "hello, world", which is not the new `String`,
and the diff after it is empty. -/
theorem diff_after_update_witness :
    GoMap.WF (GoMap.lit [("foo", "bar")]) ∧
    (Update "name" { String := "hello, world", Triggers := .lit [("foo", "bar")] }
      { String := "2", Triggers := .lit [("foo", "bar")] } false).1.String ≠ "2" ∧
    (Diff "name" (Update "name" { String := "hello, world", Triggers := .lit [("foo", "bar")] }
        { String := "2", Triggers := .lit [("foo", "bar")] } false).1
      { String := "2", Triggers := .lit [("foo", "bar")] }).1.HasChanges = false ∧
    (Diff "name" (Update "name" { String := "hello, world", Triggers := .lit [("foo", "bar")] }
        { String := "2", Triggers := .lit [("foo", "bar")] } false).1
      { String := "2", Triggers := .lit [("foo", "bar")] }).1.DetailedDiff = .lit [] :=
  ⟨by decide, by decide,
    diff_after_update "name" { String := "hello, world", Triggers := .lit [("foo", "bar")] }
      { String := "2", Triggers := .lit [("foo", "bar")] } false (by decide)⟩

/-! ## The change flag against the change map -/

theorem newTriggerStep_flag_inv (olds : StatefulStringState)
    (r : checkTriggerDiffAndUpdateResult) (kv : String × String)
    (hr : (r.triggerChanged = false → r.changeMap = []) ∧
      (r.triggerChanged = true → ∃ K : String, r.changeMap.get ("triggers." ++ K) ≠ none)) :
    ((newTriggerStep olds r kv).triggerChanged = false →
      (newTriggerStep olds r kv).changeMap = []) ∧
    ((newTriggerStep olds r kv).triggerChanged = true →
      ∃ K : String, (newTriggerStep olds r kv).changeMap.get ("triggers." ++ K) ≠ none) := by
  by_cases h : olds.Triggers.get kv.1 = some kv.2
  · rw [newTriggerStep_same h]
    exact hr
  · have htc : (newTriggerStep olds r kv).triggerChanged = true := by
      rw [newTriggerStep_changed]
      simp [h]
    refine ⟨fun hf => ?_, fun _ => ⟨kv.1, ?_⟩⟩
    · rw [htc] at hf
      exact absurd hf (by simp)
    · rw [newTriggerStep_get, if_pos ⟨rfl, h⟩]
      simp

theorem oldTriggerStep_flag_inv (news : StatefulStringArgs)
    (r : checkTriggerDiffAndUpdateResult) (kv : String × String)
    (hr : (r.triggerChanged = false → r.changeMap = []) ∧
      (r.triggerChanged = true → ∃ K : String, r.changeMap.get ("triggers." ++ K) ≠ none)) :
    ((oldTriggerStep news r kv).triggerChanged = false →
      (oldTriggerStep news r kv).changeMap = []) ∧
    ((oldTriggerStep news r kv).triggerChanged = true →
      ∃ K : String, (oldTriggerStep news r kv).changeMap.get ("triggers." ++ K) ≠ none) := by
  by_cases h : news.Triggers.get kv.1 = none
  · have htc : (oldTriggerStep news r kv).triggerChanged = true := by
      rw [oldTriggerStep_changed]
      simp [h]
    refine ⟨fun hf => ?_, fun _ => ⟨kv.1, ?_⟩⟩
    · rw [htc] at hf
      exact absurd hf (by simp)
    · rw [oldTriggerStep_get, if_pos ⟨rfl, h⟩]
      simp
  · rw [oldTriggerStep_same h]
    exact hr

/-- After both loops the flag is unset only with an empty change map, and set
only with a record under the path of some trigger key. -/
theorem loopsResult_flag_inv (olds : StatefulStringState) (news : StatefulStringArgs) :
    ((loopsResult olds news).triggerChanged = false → (loopsResult olds news).changeMap = []) ∧
    ((loopsResult olds news).triggerChanged = true →
      ∃ K : String, (loopsResult olds news).changeMap.get ("triggers." ++ K) ≠ none) := by
  unfold loopsResult
  refine foldl_invariant
    (fun r : checkTriggerDiffAndUpdateResult =>
      (r.triggerChanged = false → r.changeMap = []) ∧
      (r.triggerChanged = true → ∃ K : String, r.changeMap.get ("triggers." ++ K) ≠ none))
    (oldTriggerStep news) olds.Triggers.entries _ ?_ ?_
  · refine foldl_invariant
      (fun r : checkTriggerDiffAndUpdateResult =>
        (r.triggerChanged = false → r.changeMap = []) ∧
        (r.triggerChanged = true → ∃ K : String, r.changeMap.get ("triggers." ++ K) ≠ none))
      (newTriggerStep olds) news.Triggers.entries _ ?_ ?_
    · exact ⟨fun _ => rfl, fun h => absurd h (by simp)⟩
    · intro x kv _ hx
      exact newTriggerStep_flag_inv olds x kv hx
  · intro x kv _ hx
    exact oldTriggerStep_flag_inv news x kv hx

/-- C21: `Diff` reports `HasChanges` exactly when its detailed diff has an
entry, and a detailed diff with an entry under "string" also has an entry
under the path "triggers."+K of some key K. -/
theorem diff_hasChanges_agrees (name : String) (olds : StatefulStringState)
    (news : StatefulStringArgs) :
    ((Diff name olds news).1.HasChanges = true ↔
      (Diff name olds news).1.DetailedDiff.entries ≠ []) ∧
    ((Diff name olds news).1.DetailedDiff.get "string" ≠ none →
      ∃ K : String, (Diff name olds news).1.DetailedDiff.get ("triggers." ++ K) ≠ none) := by
  have hinv := loopsResult_flag_inv olds news
  constructor
  · show (checkTriggerDiffAndUpdate olds news).1.triggerChanged = true ↔
      (checkTriggerDiffAndUpdate olds news).1.changeMap ≠ []
    rw [check_eq, finishStep_triggerChanged]
    constructor
    · intro htc hnil
      obtain ⟨K, hK⟩ := hinv.2 htc
      have hget := finishStep_get olds news (loopsResult olds news) ("triggers." ++ K)
      rw [if_neg (fun h => triggers_path_ne_string K h.1.symm), hnil] at hget
      exact hK hget.symm
    · intro hne
      by_contra htc
      have hf : (loopsResult olds news).triggerChanged = false := by simpa using htc
      rw [finishStep_of_unchanged olds news _ hf, hinv.1 hf] at hne
      exact hne rfl
  · intro hs
    have hs2 : (checkTriggerDiffAndUpdate olds news).1.changeMap.get "string" ≠ none := hs
    rw [check_eq, finishStep_get, loopsResult_get_string] at hs2
    have htc : (loopsResult olds news).triggerChanged = true := by
      by_contra hc
      rw [if_neg (fun h => hc h.2.1)] at hs2
      exact hs2 rfl
    obtain ⟨K, hK⟩ := hinv.2 htc
    refine ⟨K, ?_⟩
    show (checkTriggerDiffAndUpdate olds news).1.changeMap.get ("triggers." ++ K) ≠ none
    rw [check_eq, finishStep_get, if_neg (fun h => triggers_path_ne_string K h.1.symm)]
    exact hK

/-- C22: the detailed diff of `Diff` has an entry under "string" exactly when
the `String` returned by `Update` is not the old `String`. -/
theorem diff_update_agree (name : String) (olds : StatefulStringState)
    (news : StatefulStringArgs) (preview : Bool) :
    (Diff name olds news).1.DetailedDiff.get "string" ≠ none ↔
      (Update name olds news preview).1.String ≠ olds.String := by
  show (checkTriggerDiffAndUpdate olds news).1.changeMap.get "string" ≠ none ↔
    (checkTriggerDiffAndUpdate olds news).1.statefulStringArgs.String ≠ olds.String
  rw [check_eq, finishStep_get, finishStep_args, loopsResult_get_string, loopsResult_args]
  by_cases htc : (loopsResult olds news).triggerChanged = true
  · by_cases hs : news.String = olds.String <;> simp [htc, hs]
  · simp [htc]

/-! ## Swapping old and new -/

theorem pathRecord_swap (x y : Option String) (d : PropertyDiff)
    (h : pathRecord x y = some d) :
    ∃ d1, pathRecord y x = some d1 ∧
      (d.Kind = "add" → d1.Kind = "delete") ∧
      (d.Kind = "delete" → d1.Kind = "add") ∧
      (d.Kind = "update" → d1.Kind = "update") := by
  cases x with
  | none =>
    cases y with
    | none => simp [pathRecord] at h
    | some b =>
      simp only [pathRecord, Option.some.injEq] at h
      subst h
      exact ⟨_, rfl, fun _ => rfl, fun h2 => absurd h2 (by decide),
        fun h2 => absurd h2 (by decide)⟩
  | some a =>
    cases y with
    | none =>
      simp only [pathRecord, Option.some.injEq] at h
      subst h
      exact ⟨_, rfl, fun h2 => absurd h2 (by decide), fun _ => rfl,
        fun h2 => absurd h2 (by decide)⟩
    | some b =>
      by_cases hab : a = b
      · simp [pathRecord, hab] at h
      · have hba : ¬ b = a := fun h2 => hab h2.symm
        simp only [pathRecord, hab, if_false, Option.some.injEq] at h
        subst h
        refine ⟨{ Kind := "update", InputDiff := false }, by simp [pathRecord, hba],
          fun h2 => absurd h2 (by decide), fun h2 => absurd h2 (by decide), fun _ => rfl⟩

/-- One direction of the mirror: a record of the change map has a mirrored
record under the same path once old and new are swapped. -/
theorem check_get_swap (sA sB : String) (A B : GoMap String) (hA : A.WF) (hB : B.WF)
    (p : String) (d : PropertyDiff)
    (h : (checkTriggerDiffAndUpdate { String := sA, Triggers := A }
      { String := sB, Triggers := B }).1.changeMap.get p = some d) :
    ∃ d1, (checkTriggerDiffAndUpdate { String := sB, Triggers := B }
        { String := sA, Triggers := A }).1.changeMap.get p = some d1 ∧
      (d.Kind = "add" → d1.Kind = "delete") ∧
      (d.Kind = "delete" → d1.Kind = "add") ∧
      (d.Kind = "update" → d1.Kind = "update") := by
  have htc : (loopsResult { String := sB, Triggers := B }
      { String := sA, Triggers := A }).triggerChanged =
      (loopsResult { String := sA, Triggers := A }
        { String := sB, Triggers := B }).triggerChanged := by
    rw [Bool.eq_iff_iff, loopsResult_changed_iff _ _ hA, loopsResult_changed_iff _ _ hB]
    constructor
    · rintro ⟨k, hk⟩
      exact ⟨k, fun h2 => hk h2.symm⟩
    · rintro ⟨k, hk⟩
      exact ⟨k, fun h2 => hk h2.symm⟩
  rw [check_eq, finishStep_get] at h
  rw [check_eq, finishStep_get, htc]
  by_cases hp : "string" = p
  · subst hp
    rw [loopsResult_get_string] at h ⊢
    by_cases hc : (loopsResult { String := sA, Triggers := A }
        { String := sB, Triggers := B }).triggerChanged = true ∧ sB ≠ sA
    · have hc2 : (loopsResult { String := sA, Triggers := A }
          { String := sB, Triggers := B }).triggerChanged = true ∧ sA ≠ sB :=
        ⟨hc.1, fun h2 => hc.2 h2.symm⟩
      rw [if_pos ⟨rfl, hc⟩, Option.some.injEq] at h
      subst h
      rw [if_pos ⟨rfl, hc2⟩]
      exact ⟨_, rfl, fun h2 => absurd h2 (by decide), fun h2 => absurd h2 (by decide),
        fun _ => rfl⟩
    · rw [if_neg (fun h2 => hc h2.2)] at h
      exact absurd h (by simp)
  · rw [if_neg (fun h2 => hp h2.1)] at h
    rw [if_neg (fun h2 => hp h2.1)]
    by_cases hK : ∃ K : String, "triggers." ++ K = p
    · obtain ⟨K, rfl⟩ := hK
      rw [loopsResult_get_path _ _ hB] at h
      rw [loopsResult_get_path _ _ hA]
      exact pathRecord_swap _ _ d h
    · rw [loopsResult_get_other _ _ p (fun K h2 => hK ⟨K, h2⟩)] at h
      exact absurd h (by simp)

/-- C23: `Diff` of state (sA, A) against input (sB, B) and `Diff` of state
(sB, B) against input (sA, A) have the same `HasChanges` and entries under
the same paths, and under each path the kinds are mirrored: "add" against
"delete", "delete" against "add", "update" against "update". -/
theorem diff_swap_mirror (name : String) (sA sB : String) (A B : GoMap String)
    (hA : A.WF) (hB : B.WF) :
    (Diff name { String := sB, Triggers := B } { String := sA, Triggers := A }).1.HasChanges =
      (Diff name { String := sA, Triggers := A } { String := sB, Triggers := B }).1.HasChanges ∧
    (∀ p,
      (Diff name { String := sB, Triggers := B }
        { String := sA, Triggers := A }).1.DetailedDiff.get p ≠ none ↔
      (Diff name { String := sA, Triggers := A }
        { String := sB, Triggers := B }).1.DetailedDiff.get p ≠ none) ∧
    (∀ p d d1,
      (Diff name { String := sA, Triggers := A }
        { String := sB, Triggers := B }).1.DetailedDiff.get p = some d →
      (Diff name { String := sB, Triggers := B }
        { String := sA, Triggers := A }).1.DetailedDiff.get p = some d1 →
      (d.Kind = "add" → d1.Kind = "delete") ∧
      (d.Kind = "delete" → d1.Kind = "add") ∧
      (d.Kind = "update" → d1.Kind = "update")) := by
  refine ⟨?_, ?_, ?_⟩
  · show (checkTriggerDiffAndUpdate _ _).1.triggerChanged =
      (checkTriggerDiffAndUpdate _ _).1.triggerChanged
    rw [check_eq, check_eq, finishStep_triggerChanged, finishStep_triggerChanged,
      Bool.eq_iff_iff, loopsResult_changed_iff _ _ hA, loopsResult_changed_iff _ _ hB]
    constructor
    · rintro ⟨k, hk⟩
      exact ⟨k, fun h2 => hk h2.symm⟩
    · rintro ⟨k, hk⟩
      exact ⟨k, fun h2 => hk h2.symm⟩
  · intro p
    show (checkTriggerDiffAndUpdate _ _).1.changeMap.get p ≠ none ↔
      (checkTriggerDiffAndUpdate _ _).1.changeMap.get p ≠ none
    constructor
    · intro h
      cases hg : (checkTriggerDiffAndUpdate { String := sB, Triggers := B }
          { String := sA, Triggers := A }).1.changeMap.get p with
      | none => exact absurd hg h
      | some d =>
        obtain ⟨d1, hd1, _⟩ := check_get_swap sB sA B A hB hA p d hg
        rw [hd1]
        simp
    · intro h
      cases hg : (checkTriggerDiffAndUpdate { String := sA, Triggers := A }
          { String := sB, Triggers := B }).1.changeMap.get p with
      | none => exact absurd hg h
      | some d =>
        obtain ⟨d1, hd1, _⟩ := check_get_swap sA sB A B hA hB p d hg
        rw [hd1]
        simp
  · intro p d d1 h h1
    obtain ⟨d2, hd2, hm⟩ := check_get_swap sA sB A B hA hB p d h
    have h3 : (checkTriggerDiffAndUpdate { String := sB, Triggers := B }
        { String := sA, Triggers := A }).1.changeMap.get p = some d1 := h1
    rw [hd2, Option.some.injEq] at h3
    subst h3
    exact hm

/-- Instance of C23: A = {foo:bar, foo2:bar2} with "1" and B = {foo:barX,
foo3:bar3} with "2"; both directions report a change, and the removed key foo2
of the one direction is the added key of the other. -/
theorem diff_swap_mirror_witness :
    (GoMap.WF (GoMap.lit [("foo", "bar"), ("foo2", "bar2")]) ∧
      GoMap.WF (GoMap.lit [("foo", "barX"), ("foo3", "bar3")])) ∧
    (Diff "name" { String := "2", Triggers := .lit [("foo", "barX"), ("foo3", "bar3")] }
        { String := "1", Triggers := .lit [("foo", "bar"), ("foo2", "bar2")] }).1.HasChanges =
      (Diff "name" { String := "1", Triggers := .lit [("foo", "bar"), ("foo2", "bar2")] }
        { String := "2", Triggers := .lit [("foo", "barX"), ("foo3", "bar3")] }).1.HasChanges ∧
    (Diff "name" { String := "1", Triggers := .lit [("foo", "bar"), ("foo2", "bar2")] }
        { String := "2", Triggers := .lit [("foo", "barX"), ("foo3", "bar3")] }
      ).1.DetailedDiff.get "triggers.foo2" = some { Kind := "delete", InputDiff := false } ∧
    (Diff "name" { String := "2", Triggers := .lit [("foo", "barX"), ("foo3", "bar3")] }
        { String := "1", Triggers := .lit [("foo", "bar"), ("foo2", "bar2")] }
      ).1.DetailedDiff.get "triggers.foo2" = some { Kind := "add", InputDiff := false } :=
  ⟨⟨by decide, by decide⟩,
    (diff_swap_mirror "name" "1" "2" (.lit [("foo", "bar"), ("foo2", "bar2")])
      (.lit [("foo", "barX"), ("foo3", "bar3")]) (by decide) (by decide)).1,
    by decide, by decide⟩

/-! ## Diff paths do not collide -/

/-- C15: every trigger key K has its record stored under its own path
"triggers."+K: the record found there by `Diff` is decided by the lookups of
K alone ("add" when only the new triggers have K, "delete" when only the old
ones have it, "update" when both have it with different values, none
otherwise), the path "string" holds the record of the primary value only, and
no other path holds a record. The loop bodies store the record of the visited
key under the path of that key, and the final block stores the record of the
primary value under "string". The path "triggers."+K determines the key K, and
no key K (the empty key and the key "string" included) has the path "string";
hence an assignment under "string" leaves the record of every trigger path as
it was, an assignment under the path of one key leaves the record of every
other key as it was, both loop bodies and the final block respect this, and
the detailed diff of `Diff` holds no path twice. -/
theorem diff_paths_distinct :
    (∀ (name : String) (olds : StatefulStringState) (news : StatefulStringArgs),
      news.Triggers.WF → ∀ K : String,
      (olds.Triggers.get K = none → news.Triggers.get K ≠ none →
        (Diff name olds news).1.DetailedDiff.get ("triggers." ++ K) =
          some { Kind := "add", InputDiff := false }) ∧
      (olds.Triggers.get K ≠ none → news.Triggers.get K = none →
        (Diff name olds news).1.DetailedDiff.get ("triggers." ++ K) =
          some { Kind := "delete", InputDiff := false }) ∧
      (∀ a b : String, olds.Triggers.get K = some a → news.Triggers.get K = some b → a ≠ b →
        (Diff name olds news).1.DetailedDiff.get ("triggers." ++ K) =
          some { Kind := "update", InputDiff := false }) ∧
      (olds.Triggers.get K = news.Triggers.get K →
        (Diff name olds news).1.DetailedDiff.get ("triggers." ++ K) = none)) ∧
    (∀ (name : String) (olds : StatefulStringState) (news : StatefulStringArgs)
      (d : PropertyDiff), (Diff name olds news).1.DetailedDiff.get "string" = some d →
        d = { Kind := "update", InputDiff := false } ∧
        (Diff name olds news).1.HasChanges = true ∧ news.String ≠ olds.String) ∧
    (∀ (name : String) (olds : StatefulStringState) (news : StatefulStringArgs),
      (Diff name olds news).1.HasChanges = true → news.String ≠ olds.String →
        (Diff name olds news).1.DetailedDiff.get "string" =
          some { Kind := "update", InputDiff := false }) ∧
    (∀ (name : String) (olds : StatefulStringState) (news : StatefulStringArgs) (p : String),
      p ≠ "string" → (∀ K : String, p ≠ "triggers." ++ K) →
        (Diff name olds news).1.DetailedDiff.get p = none) ∧
    (∀ (olds : StatefulStringState) (r : checkTriggerDiffAndUpdateResult)
      (kv : String × String), olds.Triggers.get kv.1 = none →
      (newTriggerStep olds r kv).changeMap.get ("triggers." ++ kv.1) =
        some { Kind := "add", InputDiff := false }) ∧
    (∀ (olds : StatefulStringState) (r : checkTriggerDiffAndUpdateResult)
      (kv : String × String) (w : String), olds.Triggers.get kv.1 = some w → kv.2 ≠ w →
      (newTriggerStep olds r kv).changeMap.get ("triggers." ++ kv.1) =
        some { Kind := "update", InputDiff := false }) ∧
    (∀ (news : StatefulStringArgs) (r : checkTriggerDiffAndUpdateResult)
      (kv : String × String), news.Triggers.get kv.1 = none →
      (oldTriggerStep news r kv).changeMap.get ("triggers." ++ kv.1) =
        some { Kind := "delete", InputDiff := false }) ∧
    (∀ (olds : StatefulStringState) (news : StatefulStringArgs)
      (r : checkTriggerDiffAndUpdateResult), r.triggerChanged = true →
      news.String ≠ olds.String →
      (finishStep olds news r).changeMap.get "string" =
        some { Kind := "update", InputDiff := false }) ∧
    (∀ K1 K2 : String, K1 ≠ K2 → "triggers." ++ K1 ≠ "triggers." ++ K2) ∧
    (∀ K : String, "triggers." ++ K ≠ "string") ∧
    ("triggers." ++ "" ≠ "string" ∧ "triggers." ++ "string" ≠ "string") ∧
    (∀ (es : Entries PropertyDiff) (K : String) (d : PropertyDiff),
      (es.set "string" d).get ("triggers." ++ K) = es.get ("triggers." ++ K)) ∧
    (∀ (es : Entries PropertyDiff) (K1 K2 : String) (d : PropertyDiff), K1 ≠ K2 →
      (es.set ("triggers." ++ K1) d).get ("triggers." ++ K2) = es.get ("triggers." ++ K2)) ∧
    (∀ (olds : StatefulStringState) (r : checkTriggerDiffAndUpdateResult)
      (kv : String × String) (K : String), kv.1 ≠ K →
      (newTriggerStep olds r kv).changeMap.get ("triggers." ++ K) =
        r.changeMap.get ("triggers." ++ K)) ∧
    (∀ (news : StatefulStringArgs) (r : checkTriggerDiffAndUpdateResult)
      (kv : String × String) (K : String), kv.1 ≠ K →
      (oldTriggerStep news r kv).changeMap.get ("triggers." ++ K) =
        r.changeMap.get ("triggers." ++ K)) ∧
    (∀ (olds : StatefulStringState) (news : StatefulStringArgs)
      (r : checkTriggerDiffAndUpdateResult) (K : String),
      (finishStep olds news r).changeMap.get ("triggers." ++ K) =
        r.changeMap.get ("triggers." ++ K)) ∧
    (∀ (name : String) (olds : StatefulStringState) (news : StatefulStringArgs),
      (Diff name olds news).1.DetailedDiff.WF) := by
  have hinj : ∀ K1 K2 : String, K1 ≠ K2 → "triggers." ++ K1 ≠ "triggers." ++ K2 :=
    fun K1 K2 h h2 => h (triggers_path_inj h2)
  have hstr : ∀ K : String, ¬ "string" = "triggers." ++ K :=
    fun K h => triggers_path_ne_string K h.symm
  have hpath : ∀ (name : String) (olds : StatefulStringState) (news : StatefulStringArgs),
      news.Triggers.WF → ∀ K : String,
      (Diff name olds news).1.DetailedDiff.get ("triggers." ++ K) =
        pathRecord (olds.Triggers.get K) (news.Triggers.get K) := by
    intro name olds news hwf K
    show (checkTriggerDiffAndUpdate olds news).1.changeMap.get ("triggers." ++ K) = _
    rw [check_eq, finishStep_get, if_neg (fun h => hstr K h.1), loopsResult_get_path olds news hwf]
  have hstring : ∀ (name : String) (olds : StatefulStringState) (news : StatefulStringArgs),
      (Diff name olds news).1.DetailedDiff.get "string" =
        if (Diff name olds news).1.HasChanges = true ∧ news.String ≠ olds.String
        then some { Kind := "update", InputDiff := false } else none := by
    intro name olds news
    show (checkTriggerDiffAndUpdate olds news).1.changeMap.get "string" =
      if (checkTriggerDiffAndUpdate olds news).1.triggerChanged = true ∧
        news.String ≠ olds.String
      then some { Kind := "update", InputDiff := false } else none
    rw [check_eq, finishStep_get, finishStep_triggerChanged, loopsResult_get_string]
    simp
  refine ⟨?_, ?_, ?_, ?_, ?_, ?_, ?_, ?_, hinj, triggers_path_ne_string,
    ⟨triggers_path_ne_string _, triggers_path_ne_string _⟩, ?_, ?_, ?_, ?_, ?_, ?_⟩
  · intro name olds news hwf K
    rw [hpath name olds news hwf K]
    refine ⟨?_, ?_, ?_, ?_⟩
    · intro ho hn
      cases hv : news.Triggers.get K with
      | none => exact absurd hv hn
      | some b => rw [ho]; rfl
    · intro ho hn
      cases hv : olds.Triggers.get K with
      | none => exact absurd hv ho
      | some a => rw [hn]; rfl
    · intro a b ho hn hab
      rw [ho, hn]
      simp [pathRecord, hab]
    · intro heq
      rw [heq]
      cases hv : news.Triggers.get K with
      | none => rfl
      | some b => simp [pathRecord]
  · intro name olds news d hd
    rw [hstring] at hd
    by_cases hc : (Diff name olds news).1.HasChanges = true ∧ news.String ≠ olds.String
    · rw [if_pos hc] at hd
      exact ⟨(Option.some.inj hd).symm, hc.1, hc.2⟩
    · rw [if_neg hc] at hd
      exact absurd hd (by simp)
  · intro name olds news hc hs
    rw [hstring, if_pos ⟨hc, hs⟩]
  · intro name olds news p hp hK
    show (checkTriggerDiffAndUpdate olds news).1.changeMap.get p = none
    rw [check_eq, finishStep_get, if_neg (fun h => hp h.1.symm),
      loopsResult_get_other olds news p (fun K h => hK K h.symm)]
  · intro olds r kv ho
    rw [newTriggerStep_get, if_pos ⟨rfl, by rw [ho]; simp⟩]
    simp [newRecord, ho]
  · intro olds r kv w ho hne
    have h2 : olds.Triggers.get kv.1 ≠ some kv.2 := by
      rw [ho]
      intro h3
      exact hne (Option.some.inj h3).symm
    rw [newTriggerStep_get, if_pos ⟨rfl, h2⟩]
    simp [newRecord, ho]
  · intro news r kv hn
    rw [oldTriggerStep_get, if_pos ⟨rfl, hn⟩]
    rfl
  · intro olds news r htc hs
    rw [finishStep_get, if_pos ⟨rfl, htc, hs⟩]
  · intro es K d
    rw [Entries.get_set, if_neg (hstr K)]
  · intro es K1 K2 d h
    rw [Entries.get_set, if_neg (hinj K1 K2 h)]
  · intro olds r kv K h
    rw [newTriggerStep_get, if_neg (fun h2 => hinj kv.1 K h h2.1)]
  · intro news r kv K h
    rw [oldTriggerStep_get, if_neg (fun h2 => hinj kv.1 K h h2.1)]
  · intro olds news r K
    rw [finishStep_get, if_neg (fun h2 => hstr K h2.1)]
  · intro name olds news
    exact check_changeMap_nodup olds news

/-- Instance of C15: the two keys foo and foo2 added to empty old triggers are
stored as two records under two paths. -/
theorem diff_paths_distinct_witness :
    GoMap.WF (GoMap.lit [("foo", "bar"), ("foo2", "bar2")]) ∧
    (Diff "name" { String := "1", Triggers := .lit [] }
        { String := "1", Triggers := .lit [("foo", "bar"), ("foo2", "bar2")] }
      ).1.DetailedDiff.get ("triggers." ++ "foo") =
        some { Kind := "add", InputDiff := false } ∧
    (Diff "name" { String := "1", Triggers := .lit [] }
        { String := "1", Triggers := .lit [("foo", "bar"), ("foo2", "bar2")] }
      ).1.DetailedDiff.get ("triggers." ++ "foo2") =
        some { Kind := "add", InputDiff := false } ∧
    (Diff "name" { String := "1", Triggers := .lit [] }
        { String := "1", Triggers := .lit [("foo", "bar"), ("foo2", "bar2")] }
      ).1.DetailedDiff =
        .lit [("triggers.foo", { Kind := "add", InputDiff := false }),
          ("triggers.foo2", { Kind := "add", InputDiff := false })] :=
  ⟨by decide,
    (diff_paths_distinct.1 "name" { String := "1", Triggers := .lit [] }
      { String := "1", Triggers := .lit [("foo", "bar"), ("foo2", "bar2")] } (by decide)
      "foo").1 (by decide) (by decide),
    (diff_paths_distinct.1 "name" { String := "1", Triggers := .lit [] }
      { String := "1", Triggers := .lit [("foo", "bar"), ("foo2", "bar2")] } (by decide)
      "foo2").1 (by decide) (by decide),
    by decide⟩

end StatefulString
